import Mathlib

/-!
Attendee attendance terminal: backlog drain, validation, configuration.

A shallow embedding of the firmware sources

* `firmware/attendance_terminal/config.h` (constants),
* `firmware/attendance_terminal/utils.cpp` (`isValidUrl`, `isValidRfidTag`,
  `formatMacAddress`, `saveConfiguration`, `loadJsonConfiguration`,
  `clearOfflineLogs`, `validateBackendConnection`, `getCurrentTimestamp`,
  `getUptime`, `getFormattedUptime`, `initializeFileSystem`),
* `firmware/attendance_terminal/littlefs_compat.h` (`LittleFSCompat::begin`),
* `firmware/attendance_terminal/archived_features.h` (`forceSyncAllLogs`,
  `handleAdminMenuSelection`),

followed by the properties established about them.

Conventions of the embedding:

* an Arduino `String` is a list of characters (`Str`);
* the global variables `isOnline`, `offlineLogsCount`, `backendUrl`, `deviceId`
  are fields of explicit state records;
* the backlog file `OFFLINE_LOGS_FILE` is an `Option Str`: `none` when the file
  does not exist, `some bytes` when it does;
* `syncSingleLog` is declared `extern` in the sources; it is a parameter
  `sync : σ → Str → Bool × σ` threading an arbitrary backend state `σ`;
* `int` values are unbounded integers (the counters stay far below `2^31` for
  any file that fits the flash);
* an integer division by zero is a fault (`Fault.divisionByZero`);
* the clock reading, the HTTP client and the `LittleFS` object are parameters
  that give the values the calls return;
* a JSON document is the list of its members, held in a pool of 512 bytes like
  the `StaticJsonDocument<512>` of the sources; the bytes a member takes in the
  pool are a parameter, and the JSON text in the config file is not modelled.
-/

namespace Attendee

/-- An Arduino `String`. -/
abbrev Str := List Char

/-! ## Constants of `config.h` -/

/-- The constant `MIN_RFID_TAG_LENGTH`, defined as 8. -/
def MIN_RFID_TAG_LENGTH : Nat := 8

/-- The constant `MAX_RFID_TAG_LENGTH`, defined as 20. -/
def MAX_RFID_TAG_LENGTH : Nat := 20

/-- The constant `MIN_URL_LENGTH`, defined as 10. -/
def MIN_URL_LENGTH : Nat := 10

/-- The constant `MAX_URL_LENGTH`, defined as 100. -/
def MAX_URL_LENGTH : Nat := 100

/-- The constant `DEFAULT_BACKEND_URL`, defined as `"http://192.168.1.10:3000"`. -/
def DEFAULT_BACKEND_URL : Str := "http://192.168.1.10:3000".toList

/-- The constant `OFFLINE_LOGS_FILE`, defined as `"/offline_logs.txt"`. -/
def OFFLINE_LOGS_FILE : Str := "/offline_logs.txt".toList

/-! ## The Arduino `String` and `Stream` operations the sources call -/

/-- The character `'\n'`. -/
def newline : Char := Char.ofNat 10

/-- C `isspace` in the default locale: space, `\t`, `\n`, `\v`, `\f`, `\r`. -/
def isspace (c : Char) : Bool :=
  c == ' ' || c == Char.ofNat 9 || c == Char.ofNat 10 || c == Char.ofNat 11
    || c == Char.ofNat 12 || c == Char.ofNat 13

/-- The method `String::trim()`: strips leading and trailing `isspace` characters. -/
def trim (s : Str) : Str :=
  (s.dropWhile isspace).rdropWhile isspace

/-- The method `String::startsWith(p)`. -/
def startsWith (s p : Str) : Bool := p.isPrefixOf s

/-- The method `Stream::readStringUntil(t)` on a file whose unread bytes are the argument:
the characters before the first `t` (the terminator is consumed and dropped),
or everything that is left when no `t` follows. Returns the string read and the
bytes still unread. -/
def readStringUntil (t : Char) : Str → Str × Str
  | [] => ([], [])
  | c :: cs =>
    if c = t then ([], cs)
    else ((c :: (readStringUntil t cs).1), (readStringUntil t cs).2)

/-! ## Validation functions of `utils.cpp` -/

/-- The loop of `isValidRfidTag`, from index `i` on: `false` at the first
character that is neither in `'0'..'9'` nor in `'A'..'F'`. -/
def isValidRfidTag.loop : Str → Bool
  | [] => true
  | c :: cs =>
    if !((decide ('0' ≤ c) && decide (c ≤ '9')) || (decide ('A' ≤ c) && decide (c ≤ 'F'))) then
      false
    else isValidRfidTag.loop cs

/-- The function `bool isValidRfidTag(String tag)`. -/
def isValidRfidTag (tag : Str) : Bool :=
  if tag.length < MIN_RFID_TAG_LENGTH || tag.length > MAX_RFID_TAG_LENGTH then
    false
  else isValidRfidTag.loop tag

/-- The function `bool isValidUrl(String url)`. -/
def isValidUrl (url : Str) : Bool :=
  if url.length < MIN_URL_LENGTH || url.length > MAX_URL_LENGTH then
    false
  else if !startsWith url "http://".toList && !startsWith url "https://".toList then
    false
  else true

/-- The digits and upper-case letters of hexadecimal notation. -/
def upperHexDigits : Str := "0123456789ABCDEF".toList

/-- The lower-case letters of hexadecimal notation. -/
def lowerHexLetters : Str := "abcdef".toList

/-! ## Global state, file system and the backlog drain (`archived_features.h`) -/

/-- Abnormal ends of a run. -/
inductive Fault
  | divisionByZero
  | outOfFuel
deriving DecidableEq, Repr

/-- The global variables the drain reads and writes, with the backlog file
(`none`: the file does not exist) and the state of the backend that
`syncSingleLog` talks to. -/
structure Globals (σ : Type) where
  isOnline : Bool
  offlineLogsCount : Int
  backlog : Option Str
  backend : σ

/-- Whether the file-system operations of a run succeed. Opening for reading
also needs the file to exist. -/
structure FsBehaviour where
  openReadOk : Bool
  openWriteOk : Bool
  removeOk : Bool
deriving DecidableEq, Repr

/-- A call to the file system, with the path it is made on. -/
inductive FsCall
  | openRead (path : Str) (ok : Bool)
  | openWrite (path : Str) (ok : Bool)
  | print (path : Str) (data : Str)
  | close (path : Str)
  | remove (path : Str) (ok : Bool)
deriving DecidableEq, Repr

/-- The path a file-system call is made on. -/
def FsCall.path : FsCall → Str
  | .openRead path _ => path
  | .openWrite path _ => path
  | .print path _ => path
  | .close path => path
  | .remove path _ => path

/-- Effect of one file-system call on the content of the backlog file:
a successful `open(path, "w")` truncates, `print` appends at the end, a
successful `remove` deletes; reading and closing change nothing, and neither
does a failed call or a call on another path. -/
def FsCall.apply (file : Option Str) : FsCall → Option Str
  | .openRead _ _ => file
  | .openWrite path ok => if ok && path == OFFLINE_LOGS_FILE then some [] else file
  | .print path data => if path == OFFLINE_LOGS_FILE then some (file.getD [] ++ data) else file
  | .close _ => file
  | .remove path ok => if ok && path == OFFLINE_LOGS_FILE then none else file

/-- The contents the backlog file goes through during a sequence of calls:
the content before the first call, then the content after each call. -/
def backlogHistory (file : Option Str) : List FsCall → List (Option Str)
  | [] => [file]
  | c :: cs => file :: backlogHistory (c.apply file) cs

/-- The content of the backlog file after a sequence of calls. -/
def runFsCalls (file : Option Str) (calls : List FsCall) : Option Str :=
  calls.foldl FsCall.apply file

/-- The local variables of `forceSyncAllLogs` that change in its loop, the
backend state, and two records kept for the properties: the calls made to
`syncSingleLog` (argument and returned value, oldest first) and the numbers
printed after `"Progress: "`. -/
structure LoopState (σ : Type) where
  synced : Int
  tempContent : Str
  backend : σ
  calls : List (Str × Bool)
  progress : List Int

/-- The state in which the loop of `forceSyncAllLogs` starts: `synced = 0`,
`tempContent = ""`. -/
def initialLoopState {σ : Type} (g : Globals σ) : LoopState σ :=
  { synced := 0, tempContent := [], backend := g.backend, calls := [], progress := [] }

/-- The body of `if (line.length() > 0) { ... }` once the divisor is known to
be non-zero: print the progress, call `syncSingleLog(line)`, then either
`synced++` or `tempContent += line + "\n"`. -/
def forceSyncAllLogs.deliver {σ : Type} (sync : σ → Str → Bool × σ) (total : Int)
    (line : Str) (s : LoopState σ) : LoopState σ :=
  if (sync s.backend line).1 then
    { synced := s.synced + 1
      tempContent := s.tempContent
      backend := (sync s.backend line).2
      calls := s.calls ++ [(line, true)]
      progress := s.progress ++ [(s.synced * 100).tdiv total] }
  else
    { synced := s.synced
      tempContent := s.tempContent ++ (line ++ [newline])
      backend := (sync s.backend line).2
      calls := s.calls ++ [(line, false)]
      progress := s.progress ++ [(s.synced * 100).tdiv total] }

/-- The loop `while (file.available()) { ... }` of `forceSyncAllLogs` on the
unread bytes of the file. Every iteration reads at least one byte, so a fuel
equal to the number of unread bytes is enough. -/
def forceSyncAllLogs.loop {σ : Type} (sync : σ → Str → Bool × σ) (total : Int) :
    Nat → Str → LoopState σ → Except Fault (LoopState σ)
  | 0, unread, s => if unread.isEmpty then .ok s else .error .outOfFuel
  | fuel + 1, unread, s =>
    if unread.isEmpty then .ok s
    else
      let line := trim (readStringUntil newline unread).1
      if line.length > 0 then
        if total = 0 then .error .divisionByZero
        else
          forceSyncAllLogs.loop sync total fuel (readStringUntil newline unread).2
            (forceSyncAllLogs.deliver sync total line s)
      else forceSyncAllLogs.loop sync total fuel (readStringUntil newline unread).2 s

/-- What a run of `forceSyncAllLogs` (or of the menu entry around it) leaves:
the globals, the calls made to `syncSingleLog`, the progress numbers printed
and the file-system calls made, oldest first. -/
structure SyncResult (σ : Type) where
  globals : Globals σ
  calls : List (Str × Bool)
  progress : List Int
  fsCalls : List FsCall

/-- The part of `forceSyncAllLogs` after the loop: `file.close()`, then the
rewrite of the logs file (`"// Update logs file"`) and of `offlineLogsCount`. -/
def forceSyncAllLogs.finish {σ : Type} (fs : FsBehaviour) (g : Globals σ)
    (s : LoopState σ) : SyncResult σ :=
  let total := g.offlineLogsCount
  if s.tempContent.length > 0 then
    let fsCalls :=
      [FsCall.openRead OFFLINE_LOGS_FILE true, FsCall.close OFFLINE_LOGS_FILE] ++
        (if fs.openWriteOk then
          [FsCall.openWrite OFFLINE_LOGS_FILE true,
            FsCall.print OFFLINE_LOGS_FILE s.tempContent,
            FsCall.close OFFLINE_LOGS_FILE]
        else [FsCall.openWrite OFFLINE_LOGS_FILE false])
    { globals :=
        { isOnline := g.isOnline
          offlineLogsCount := total - s.synced
          backlog := runFsCalls g.backlog fsCalls
          backend := s.backend }
      calls := s.calls
      progress := s.progress
      fsCalls := fsCalls }
  else
    let fsCalls :=
      [FsCall.openRead OFFLINE_LOGS_FILE true, FsCall.close OFFLINE_LOGS_FILE,
        FsCall.remove OFFLINE_LOGS_FILE fs.removeOk]
    { globals :=
        { isOnline := g.isOnline
          offlineLogsCount := 0
          backlog := runFsCalls g.backlog fsCalls
          backend := s.backend }
      calls := s.calls
      progress := s.progress
      fsCalls := fsCalls }

/-- The function `void forceSyncAllLogs()`. The display calls other than the progress
number, the delays and the final log line are left out. -/
def forceSyncAllLogs {σ : Type} (fs : FsBehaviour) (sync : σ → Str → Bool × σ)
    (g : Globals σ) : Except Fault (SyncResult σ) :=
  match (if fs.openReadOk then g.backlog else none) with
  | none =>
    .ok { globals := g, calls := [], progress := [],
          fsCalls := [FsCall.openRead OFFLINE_LOGS_FILE false] }
  | some content =>
    match forceSyncAllLogs.loop sync g.offlineLogsCount content.length content
        (initialLoopState g) with
    | .error e => .error e
    | .ok s => .ok (forceSyncAllLogs.finish fs g s)

/-- The function `void handleAdminMenuSelection()` for the value `adminMenuSelection` of the
menu index. Entry 3 (`// Force Sync`) is the guarded drain; the other entries
(device information, network status, log statistics, RFID test, WiFi reset,
restart) are the parameter `menuAction`. -/
def handleAdminMenuSelection {σ : Type} (fs : FsBehaviour) (sync : σ → Str → Bool × σ)
    (menuAction : Int → Globals σ → Except Fault (SyncResult σ))
    (adminMenuSelection : Int) (g : Globals σ) : Except Fault (SyncResult σ) :=
  if adminMenuSelection = 3 then
    if g.isOnline && decide (g.offlineLogsCount > 0) then
      forceSyncAllLogs fs sync g
    else
      .ok { globals := g, calls := [], progress := [], fsCalls := [] }
  else menuAction adminMenuSelection g

/-! ## Configuration (`utils.cpp`) -/

/-- The function `String formatMacAddress(String mac)`: `mac.replace(":", "")`, then
`mac.toUpperCase()`. -/
def formatMacAddress (mac : Str) : Str :=
  (mac.filter (fun c => c != ':')).map Char.toUpper

/-- The global variables `backendUrl` and `deviceId`. -/
structure Config where
  backendUrl : Str
  deviceId : Str
deriving DecidableEq, Repr

/-- What `loadJsonConfiguration` reads of a parsed JSON document: for each of
the two keys, `none` when `config.containsKey(key)` is false and otherwise
`some` of `config[key].as<String>()`. -/
structure JsonConfig where
  backendUrl : Option Str
  deviceId : Option Str
deriving DecidableEq, Repr

/-- What `LittleFS.open(CONFIG_FILE, "r")` and `deserializeJson` yield: the file
does not open, it opens and does not parse, or it parses. -/
inductive ConfigFile
  | missing
  | parseError
  | parsed (doc : JsonConfig)
deriving DecidableEq, Repr

/-- The block `// Ensure defaults are always set` that `loadJsonConfiguration`
runs when the file is missing and when it does not parse. -/
def loadJsonConfiguration.ensureDefaults (macAddress : Str) (c : Config) : Config :=
  let backendUrl := if c.backendUrl.length = 0 then DEFAULT_BACKEND_URL else c.backendUrl
  let deviceId :=
    if c.deviceId.length = 0 then "ESP_".toList ++ formatMacAddress macAddress else c.deviceId
  { backendUrl := backendUrl, deviceId := deviceId }

/-- The function `bool loadJsonConfiguration()`, with `WiFi.macAddress()` and the outcome of
reading the file as parameters: the value returned and the globals afterwards. -/
def loadJsonConfiguration (macAddress : Str) (file : ConfigFile) (c : Config) : Bool × Config :=
  match file with
  | .missing => (false, loadJsonConfiguration.ensureDefaults macAddress c)
  | .parseError => (false, loadJsonConfiguration.ensureDefaults macAddress c)
  | .parsed doc =>
    let backendUrl :=
      match doc.backendUrl with
      | some loadedUrl =>
        if loadedUrl.length > 0 then
          if isValidUrl loadedUrl then loadedUrl else DEFAULT_BACKEND_URL
        else DEFAULT_BACKEND_URL
      | none => DEFAULT_BACKEND_URL
    let deviceId :=
      match doc.deviceId with
      | some stored =>
        if stored.length > 0 then stored else "ESP_".toList ++ formatMacAddress macAddress
      | none => "ESP_".toList ++ formatMacAddress macAddress
    (true, { backendUrl := backendUrl, deviceId := deviceId })

/-! ## Entries of a backlog file -/

/-- The pieces of a text between its newline characters. -/
def splitLines : Str → List Str
  | [] => [[]]
  | c :: cs =>
    if c = newline then [] :: splitLines cs
    else
      match splitLines cs with
      | [] => [[c]]
      | l :: ls => (c :: l) :: ls

/-- The entries of a backlog text: its lines, trimmed, the empty ones dropped. -/
def entriesOfText (text : Str) : List Str :=
  ((splitLines text).map trim).filter (fun l => decide (l ≠ []))

/-- The entries a backlog file holds; a file that does not exist holds none. -/
def fileEntries : Option Str → List Str
  | none => []
  | some text => entriesOfText text

/-- The text that holds the given entries, one per line, each followed by a
newline. -/
def serialize : List Str → Str
  | [] => []
  | e :: es => e ++ [newline] ++ serialize es

/-- An entry as the drain passes it on: not empty, nothing to trim, on one line. -/
def WellFormedEntry (e : Str) : Prop :=
  e ≠ [] ∧ trim e = e ∧ newline ∉ e

instance (e : Str) : Decidable (WellFormedEntry e) := by
  unfold WellFormedEntry; infer_instance

/-- The entries of the calls that returned `false`, in call order. -/
def failedEntries (calls : List (Str × Bool)) : List Str :=
  (calls.filter (fun c => !c.2)).map (fun c => c.1)

/-- The loop body of `forceSyncAllLogs` applied to each entry of a list in
turn. -/
def deliverAll {σ : Type} (sync : σ → Str → Bool × σ) (total : Int) :
    List Str → LoopState σ → LoopState σ
  | [], s => s
  | e :: es, s => deliverAll sync total es (forceSyncAllLogs.deliver sync total e s)

/-- The entries of the calls that returned `true`, in call order. -/
def deliveredEntries (calls : List (Str × Bool)) : List Str :=
  (calls.filter (fun c => c.2)).map (fun c => c.1)

/-- What the loop keeps true: `tempContent` is the text of the failed entries
and `synced` counts the delivered ones. -/
def LoopInvariant {σ : Type} (s : LoopState σ) : Prop :=
  s.tempContent = serialize (failedEntries s.calls) ∧
    s.synced = (deliveredEntries s.calls).length

/-- The values `syncSingleLog` returns when it is called on the given entries
one after the other, the first call being made in backend state `b`. -/
def deliveryResults {σ : Type} (sync : σ → Str → Bool × σ) : σ → List Str → List Bool
  | _, [] => []
  | b, e :: es => (sync b e).1 :: deliveryResults sync (sync b e).2 es

/-! ## Saving the configuration (`utils.cpp`) -/

/-- The constant `FIRMWARE_VERSION`, defined as `"2.0.0"`. -/
def FIRMWARE_VERSION : Str := "2.0.0".toList

/-- The capacity in bytes of the memory pool of a `StaticJsonDocument<512>`, the
type of the document in `saveConfiguration` and in `loadJsonConfiguration`. -/
def staticJsonDocumentCapacity : Nat := 512

/-- A value of a member of a JSON document: a string, an unsigned number, or
null. -/
inductive JsonValue
  | str (s : Str)
  | num (n : Nat)
  | null
deriving DecidableEq, Repr

/-- A JSON object: its keys with their values, in the order they were added. -/
abbrev JsonDocument := List (Str × JsonValue)

/-- The conversion `as<String>()` of a member: a string as it is, another value
in its JSON notation. -/
def JsonValue.asString : JsonValue → Str
  | .str s => s
  | .num n => Nat.toDigits 10 n
  | .null => "null".toList

/-- The value stored under a key; `none` when `containsKey(key)` is false. -/
def JsonDocument.member (doc : JsonDocument) (key : Str) : Option JsonValue :=
  (doc.find? (fun kv => kv.1 == key)).map (fun kv => kv.2)

/-- What `loadJsonConfiguration` reads of a document: the two keys it asks for,
each converted with `as<String>()`. -/
def JsonDocument.view (doc : JsonDocument) : JsonConfig :=
  { backendUrl := (JsonDocument.member doc "backendUrl".toList).map JsonValue.asString
    deviceId := (JsonDocument.member doc "deviceId".toList).map JsonValue.asString }

/-- The memory pool of a `StaticJsonDocument<512>` while it is filled: the
members it holds and the bytes in use. -/
structure JsonPool where
  members : JsonDocument
  used : Nat
deriving DecidableEq, Repr

/-- The assignment `config[key] = value` of a `String`, with `slotBytes` the
bytes the library takes for one member (16 on the ESP8266). The key is a
literal and is not copied; the value is copied into the pool with its
terminator. Without room for the member nothing is added; without room for the
copy the member is added and its value stays null. -/
def JsonPool.setString (slotBytes : Nat) (pool : JsonPool) (key value : Str) : JsonPool :=
  if pool.used + slotBytes > staticJsonDocumentCapacity then pool
  else if pool.used + slotBytes + (value.length + 1) > staticJsonDocumentCapacity then
    { members := pool.members ++ [(key, JsonValue.null)], used := pool.used + slotBytes }
  else
    { members := pool.members ++ [(key, JsonValue.str value)]
      used := pool.used + slotBytes + (value.length + 1) }

/-- The assignment `config[key] = value` of a string literal or of a number: the
value is held in the member itself, nothing is copied. Without room for the
member nothing is added. -/
def JsonPool.setInPlace (slotBytes : Nat) (pool : JsonPool) (key : Str)
    (value : JsonValue) : JsonPool :=
  if pool.used + slotBytes > staticJsonDocumentCapacity then pool
  else { members := pool.members ++ [(key, value)], used := pool.used + slotBytes }

/-- The function `bool saveConfiguration()`, with the bytes the JSON library
takes for one member, whether `LittleFS.open(CONFIG_FILE, "w")` succeeds, the
value of `millis()`, the globals and the document the config file holds: the
value returned and the document the file holds afterwards. The file is taken
to hold the members that `serializeJson` writes; the JSON text itself is not
modelled. -/
def saveConfiguration (slotBytes : Nat) (fileOpens : Bool) (millis : Nat) (c : Config)
    (file : Option JsonDocument) : Bool × Option JsonDocument :=
  let config₀ : JsonPool := { members := [], used := 0 }
  let config₁ := JsonPool.setString slotBytes config₀ "backendUrl".toList c.backendUrl
  let config₂ := JsonPool.setString slotBytes config₁ "deviceId".toList c.deviceId
  let config₃ :=
    JsonPool.setInPlace slotBytes config₂ "firmware".toList (JsonValue.str FIRMWARE_VERSION)
  let config₄ :=
    JsonPool.setInPlace slotBytes config₃ "lastUpdate".toList (JsonValue.num millis)
  if !fileOpens then (false, file)
  else (true, some config₄.members)

/-- The bytes `deserializeJson` needs in the pool for a document it reads from a
file: for every member the member itself and a copy of the key with its
terminator, and for a string value a copy of the value with its terminator. -/
def JsonDocument.bytesToLoad (slotBytes : Nat) (doc : JsonDocument) : Nat :=
  (doc.map (fun kv =>
    slotBytes + (kv.1.length + 1) +
      (match kv.2 with
        | JsonValue.str s => s.length + 1
        | _ => 0))).sum

/-- The start of `loadJsonConfiguration` on a config file that holds a
document: `LittleFS.open(CONFIG_FILE, "r")`, which fails when there is no file,
then `deserializeJson` into a `StaticJsonDocument<512>`, which reports an error
when the text is malformed (`parses` false) and when the document does not fit
the pool. -/
def readConfigFile (slotBytes : Nat) (fileOpens parses : Bool)
    (file : Option JsonDocument) : ConfigFile :=
  match file with
  | none => ConfigFile.missing
  | some doc =>
    if !fileOpens then ConfigFile.missing
    else if !parses then ConfigFile.parseError
    else if JsonDocument.bytesToLoad slotBytes doc > staticJsonDocumentCapacity then
      ConfigFile.parseError
    else ConfigFile.parsed (JsonDocument.view doc)

/-- A device identifier of 600 characters. -/
def longDeviceId : Str := List.replicate 600 'A'

/-! ## Uptime (`utils.cpp`) -/

/-- The conversion `String(n)` of an `unsigned long`: its decimal digits. -/
def decimal (n : Nat) : Str := Nat.toDigits 10 n

/-- The function `unsigned long getUptime()` for the value of `millis()`. -/
def getUptime (millis : Nat) : Nat := millis / 1000

/-- The body of `getFormattedUptime` after `uptime = getUptime()`. -/
def getFormattedUptime.format (uptime : Nat) : Str :=
  let days := uptime / (24 * 3600)
  let uptime₁ := uptime % (24 * 3600)
  let hours := uptime₁ / 3600
  let uptime₂ := uptime₁ % 3600
  let minutes := uptime₂ / 60
  let seconds := uptime₂ % 60
  let result₀ : Str := []
  let result₁ := if days > 0 then result₀ ++ (decimal days ++ "d ".toList) else result₀
  let result₂ := if hours > 0 then result₁ ++ (decimal hours ++ "h ".toList) else result₁
  let result₃ := if minutes > 0 then result₂ ++ (decimal minutes ++ "m ".toList) else result₂
  result₃ ++ (decimal seconds ++ "s".toList)

/-- The function `String getFormattedUptime()` for the value of `millis()`. -/
def getFormattedUptime (millis : Nat) : Str :=
  getFormattedUptime.format (getUptime millis)

/-- The value of a decimal digit character. -/
def digitValue (c : Char) : Nat := c.toNat - 48

/-- One step of reading an uptime text back: a digit extends the number being
read, a unit letter adds the number, in seconds, to the sum and starts a new
number, a blank changes nothing. The state is the sum and the number. -/
def readUptimeChar (st : Nat × Nat) (c : Char) : Nat × Nat :=
  if c = 'd' then (st.1 + st.2 * 86400, 0)
  else if c = 'h' then (st.1 + st.2 * 3600, 0)
  else if c = 'm' then (st.1 + st.2 * 60, 0)
  else if c = 's' then (st.1 + st.2, 0)
  else if c = ' ' then st
  else (st.1, st.2 * 10 + digitValue c)

/-- The number of seconds an uptime text stands for. -/
def readUptime (text : Str) : Nat :=
  (text.foldl readUptimeChar (0, 0)).1

/-! ## Concrete file systems, deliveries and states used in examples -/

/-- A file system on which every operation succeeds. -/
def fsAllOk : FsBehaviour := { openReadOk := true, openWriteOk := true, removeOk := true }

/-- A file system on which opening the backlog for writing fails. -/
def fsWriteFails : FsBehaviour := { openReadOk := true, openWriteOk := false, removeOk := true }

/-- A file system on which removing the backlog fails. -/
def fsRemoveFails : FsBehaviour := { openReadOk := true, openWriteOk := true, removeOk := false }

/-- A delivery that fails for every entry. -/
def failAll : Unit → Str → Bool × Unit := fun _ _ => (false, ())

/-- A delivery that succeeds for every entry. -/
def succeedAll : Unit → Str → Bool × Unit := fun _ _ => (true, ())

/-- A delivery that fails for the entry `T2` and succeeds for every other one. -/
def failT2 : Unit → Str → Bool × Unit := fun _ e => (e != "T2".toList, ())

/-- An online terminal whose backlog file has the given bytes, with the given
value of `offlineLogsCount`. -/
def terminalWith (text : String) (count : Int) : Globals Unit :=
  { isOnline := true, offlineLogsCount := count, backlog := some text.toList, backend := () }

/-! ## Timing and capacity constants of `config.h` -/

/-- The constant `SYNC_RETRY_INTERVAL`, defined as `10*60*1000`. -/
def SYNC_RETRY_INTERVAL : Nat := 10 * 60 * 1000

/-- The constant `CARD_READ_DELAY`, defined as 2000. -/
def CARD_READ_DELAY : Nat := 2000

/-- The constant `MAX_OFFLINE_LOGS`, defined as 1000. -/
def MAX_OFFLINE_LOGS : Nat := 1000

/-! ## Clearing the backlog (`utils.cpp`) -/

/-- The function `bool clearOfflineLogs()`: the value returned and the globals
afterwards. `LittleFS.remove` succeeds when the file exists and the file
system lets the removal through. -/
def clearOfflineLogs {σ : Type} (fs : FsBehaviour) (g : Globals σ) : Bool × Globals σ :=
  if fs.removeOk && g.backlog.isSome then
    (true,
      { isOnline := g.isOnline, offlineLogsCount := 0, backlog := none, backend := g.backend })
  else (false, g)

/-- The predicate that `offlineLogsCount` is the number of entries in the
backlog file. -/
def CountMatchesFile {σ : Type} (g : Globals σ) : Prop :=
  g.offlineLogsCount = ((fileEntries g.backlog).length : Int)

instance {σ : Type} (g : Globals σ) : Decidable (CountMatchesFile g) := by
  unfold CountMatchesFile; infer_instance

/-! ## Time stamps (`utils.cpp`) -/

/-- A reading of the clock, the value of `rtc.now()`. -/
structure DateTime where
  year : Nat
  month : Nat
  day : Nat
  hour : Nat
  minute : Nat
  second : Nat
deriving DecidableEq, Repr

/-- The conversion `%0<width>d` of `sprintf` for an argument that is not
negative: the decimal digits of the argument, with zeros in front up to the
width; a longer number is printed in full. -/
def sprintfZeroPadded (width n : Nat) : Str :=
  List.replicate (width - (Nat.toDigits 10 n).length) '0' ++ Nat.toDigits 10 n

/-- The characters `sprintf` produces for the format
`"%04d-%02d-%02dT%02d:%02d:%02d"` in `getCurrentTimestamp`. -/
def getCurrentTimestamp.formatted (now : DateTime) : Str :=
  sprintfZeroPadded 4 now.year ++ ['-'] ++ sprintfZeroPadded 2 now.month ++ ['-'] ++
    sprintfZeroPadded 2 now.day ++ ['T'] ++ sprintfZeroPadded 2 now.hour ++ [':'] ++
    sprintfZeroPadded 2 now.minute ++ [':'] ++ sprintfZeroPadded 2 now.second

/-- The function `String getCurrentTimestamp()` for the clock reading
`now = rtc.now()`: the string returned, or `none` when the characters and their
terminator do not fit `char buffer[25]`. -/
def getCurrentTimestamp (now : DateTime) : Option Str :=
  if (getCurrentTimestamp.formatted now).length + 1 ≤ 25 then
    some (getCurrentTimestamp.formatted now)
  else none

/-- The `width` decimal digits of `n`, the most significant first. -/
def fixedDecimal (width n : Nat) : Str :=
  (List.range width).reverse.map (fun i => Nat.digitChar (n / 10 ^ i % 10))

/-- The decimal digits. -/
def decimalDigits : Str := "0123456789".toList

/-! ## The health probe (`utils.cpp`) -/

/-- What a run of `validateBackendConnection` leaves: the value returned, the
global `isOnline`, the URLs of the requests made and the state of the network. -/
structure ProbeResult (σ : Type) where
  returned : Bool
  isOnline : Bool
  requests : List Str
  network : σ

/-- The function `bool validateBackendConnection()`; `httpGet` is the request
`http.begin(wifiClient, url)`, `http.GET()`, `http.end()` with the status code
it yields. -/
def validateBackendConnection {σ : Type} (httpGet : σ → Str → Int × σ)
    (isOnline : Bool) (backendUrl : Str) (network : σ) : ProbeResult σ :=
  if !isOnline then
    { returned := false, isOnline := isOnline, requests := [], network := network }
  else
    { returned := decide ((httpGet network (backendUrl ++ "/health".toList)).1 = 200)
      isOnline := isOnline
      requests := [backendUrl ++ "/health".toList]
      network := (httpGet network (backendUrl ++ "/health".toList)).2 }

/-! ## Mounting the file system (`utils.cpp`, `littlefs_compat.h`) -/

/-- A call to the `LittleFS` object made while mounting. -/
inductive MountCall
  | begin
  | format
deriving DecidableEq, Repr

/-- The behaviour of `LittleFS.begin()` and `LittleFS.format()` on a device
whose state has type `δ`: the value returned and the state afterwards. -/
structure LittleFS (δ : Type) where
  begin : δ → Bool × δ
  format : δ → Bool × δ

/-- What a mounting function leaves: the value returned, the state of the
device and the calls made, oldest first. -/
structure MountResult (δ : Type) where
  returned : Bool
  device : δ
  calls : List MountCall

/-- The function `bool initializeFileSystem()` of `utils.cpp`. -/
def initializeFileSystem {δ : Type} (littleFS : LittleFS δ) (d : δ) : MountResult δ :=
  if !(littleFS.begin d).1 then
    if (littleFS.format (littleFS.begin d).2).1 then
      if (littleFS.begin (littleFS.format (littleFS.begin d).2).2).1 then
        { returned := true
          device := (littleFS.begin (littleFS.format (littleFS.begin d).2).2).2
          calls := [MountCall.begin, MountCall.format, MountCall.begin] }
      else
        { returned := false
          device := (littleFS.begin (littleFS.format (littleFS.begin d).2).2).2
          calls := [MountCall.begin, MountCall.format, MountCall.begin] }
    else
      { returned := false
        device := (littleFS.format (littleFS.begin d).2).2
        calls := [MountCall.begin, MountCall.format] }
  else
    { returned := true, device := (littleFS.begin d).2, calls := [MountCall.begin] }

/-- The function `static bool LittleFSCompat::begin()` of `littlefs_compat.h`. -/
def LittleFSCompat.begin {δ : Type} (littleFS : LittleFS δ) (d : δ) : MountResult δ :=
  if !(littleFS.begin d).1 then
    if (littleFS.format (littleFS.begin d).2).1 then
      if (littleFS.begin (littleFS.format (littleFS.begin d).2).2).1 then
        { returned := true
          device := (littleFS.begin (littleFS.format (littleFS.begin d).2).2).2
          calls := [MountCall.begin, MountCall.format, MountCall.begin] }
      else
        { returned := false
          device := (littleFS.begin (littleFS.format (littleFS.begin d).2).2).2
          calls := [MountCall.begin, MountCall.format, MountCall.begin] }
    else
      { returned := false
        device := (littleFS.format (littleFS.begin d).2).2
        calls := [MountCall.begin, MountCall.format] }
  else
    { returned := true, device := (littleFS.begin d).2, calls := [MountCall.begin] }

/-! ## Lemmas on strings and lines -/

theorem readStringUntil_length (t : Char) (u : Str) :
    (readStringUntil t u).2.length ≤ u.length - 1 := by
  induction u with
  | nil => simp [readStringUntil]
  | cons c cs ih =>
    simp only [readStringUntil]
    split
    · simp
    · simp only [List.length_cons, Nat.add_sub_cancel]
      omega

theorem splitLines_ne_nil (u : Str) : splitLines u ≠ [] := by
  cases u with
  | nil => simp [splitLines]
  | cons c cs =>
    simp only [splitLines]
    split
    · simp
    · split <;> simp

theorem splitLines_read (u : Str) (h : u ≠ []) :
    splitLines u = (readStringUntil newline u).1 :: splitLines (readStringUntil newline u).2 ∨
      (splitLines u = [(readStringUntil newline u).1] ∧ (readStringUntil newline u).2 = []) := by
  induction u with
  | nil => exact absurd rfl h
  | cons c cs ih =>
    by_cases hc : c = newline
    · left
      simp [splitLines, readStringUntil, hc]
    · by_cases hcs : cs = []
      · right
        subst hcs
        simp [splitLines, readStringUntil, hc]
      · rcases ih hcs with h1 | ⟨h1, h2⟩
        · left
          simp [splitLines, readStringUntil, hc, h1]
        · right
          simp [splitLines, readStringUntil, hc, h1, h2]

theorem trim_nil : trim [] = [] := by
  simp [trim, List.rdropWhile]

theorem entriesOfText_nil : entriesOfText [] = [] := by
  simp [entriesOfText, splitLines, trim_nil]

theorem entriesOfText_read (u : Str) (h : u ≠ []) :
    entriesOfText u =
      (if (trim (readStringUntil newline u).1).length > 0
        then [trim (readStringUntil newline u).1] else []) ++
        entriesOfText (readStringUntil newline u).2 := by
  have hlen : ∀ l : Str, l.length > 0 ↔ l ≠ [] := fun l => by
    cases l <;> simp
  rcases splitLines_read u h with h1 | ⟨h1, h2⟩
  · unfold entriesOfText
    rw [h1]
    by_cases ht : trim (readStringUntil newline u).1 = []
    · simp [ht]
    · simp [ht, (hlen _).2 ht]
  · rw [h2, entriesOfText_nil]
    unfold entriesOfText
    rw [h1]
    by_cases ht : trim (readStringUntil newline u).1 = []
    · simp [ht]
    · simp [ht, (hlen _).2 ht]

/-! ## The loop of the drain as a fold over the entries of the file -/

theorem loop_eq_deliverAll {σ : Type} (sync : σ → Str → Bool × σ) (total : Int)
    (htotal : total ≠ 0) (fuel : Nat) :
    ∀ (unread : Str) (s : LoopState σ), unread.length ≤ fuel →
      forceSyncAllLogs.loop sync total fuel unread s =
        .ok (deliverAll sync total (entriesOfText unread) s) := by
  induction fuel with
  | zero =>
    intro unread s hlen
    have : unread = [] := List.eq_nil_of_length_eq_zero (Nat.le_zero.mp hlen)
    subst this
    simp [forceSyncAllLogs.loop, entriesOfText_nil, deliverAll]
  | succ fuel ih =>
    intro unread s hlen
    by_cases hu : unread = []
    · subst hu
      simp [forceSyncAllLogs.loop, entriesOfText_nil, deliverAll]
    · have hrest : (readStringUntil newline unread).2.length ≤ fuel := by
        have := readStringUntil_length newline unread
        omega
      have hne : unread.isEmpty = false := by
        cases unread with
        | nil => exact absurd rfl hu
        | cons _ _ => rfl
      rw [entriesOfText_read unread hu]
      simp only [forceSyncAllLogs.loop, hne, Bool.false_eq_true, if_false, htotal]
      by_cases hl : (trim (readStringUntil newline unread).1).length > 0
      · simp only [hl, if_true, List.singleton_append, deliverAll]
        exact ih _ _ hrest
      · simp only [hl, if_false, List.nil_append]
        exact ih _ _ hrest

/-- Without entries the loop ends normally whatever the divisor is. -/
theorem loop_no_entries {σ : Type} (sync : σ → Str → Bool × σ) (total : Int) (fuel : Nat) :
    ∀ (unread : Str) (s : LoopState σ), unread.length ≤ fuel → entriesOfText unread = [] →
      forceSyncAllLogs.loop sync total fuel unread s = .ok s := by
  induction fuel with
  | zero =>
    intro unread s hlen _
    have : unread = [] := List.eq_nil_of_length_eq_zero (Nat.le_zero.mp hlen)
    subst this
    simp [forceSyncAllLogs.loop]
  | succ fuel ih =>
    intro unread s hlen hent
    by_cases hu : unread = []
    · subst hu
      simp [forceSyncAllLogs.loop]
    · have hrest : (readStringUntil newline unread).2.length ≤ fuel := by
        have := readStringUntil_length newline unread
        omega
      have hne : unread.isEmpty = false := by
        cases unread with
        | nil => exact absurd rfl hu
        | cons _ _ => rfl
      rw [entriesOfText_read unread hu] at hent
      by_cases hl : (trim (readStringUntil newline unread).1).length > 0
      · simp [hl] at hent
      · simp only [hl, if_false, List.nil_append] at hent
        simp only [forceSyncAllLogs.loop, hne, Bool.false_eq_true, if_false, hl]
        exact ih _ _ hrest hent

/-! ## What the fold leaves -/

theorem deliver_calls {σ : Type} (sync : σ → Str → Bool × σ) (total : Int) (e : Str)
    (s : LoopState σ) :
    (forceSyncAllLogs.deliver sync total e s).calls = s.calls ++ [(e, (sync s.backend e).1)] := by
  unfold forceSyncAllLogs.deliver
  by_cases h : (sync s.backend e).1 = true
  · simp [h]
  · simp [h]

theorem deliverAll_calls_fst {σ : Type} (sync : σ → Str → Bool × σ) (total : Int) :
    ∀ (es : List Str) (s : LoopState σ),
      (deliverAll sync total es s).calls.map (fun c => c.1) = s.calls.map (fun c => c.1) ++ es := by
  intro es
  induction es with
  | nil => intro s; simp [deliverAll]
  | cons e es ih =>
    intro s
    rw [deliverAll, ih, deliver_calls]
    simp

theorem failedEntries_append (a b : List (Str × Bool)) :
    failedEntries (a ++ b) = failedEntries a ++ failedEntries b := by
  simp [failedEntries]

theorem deliveredEntries_append (a b : List (Str × Bool)) :
    deliveredEntries (a ++ b) = deliveredEntries a ++ deliveredEntries b := by
  simp [deliveredEntries]

theorem serialize_append (a b : List Str) :
    serialize (a ++ b) = serialize a ++ serialize b := by
  induction a with
  | nil => simp [serialize]
  | cons e es ih => simp [serialize, ih]

theorem deliver_invariant {σ : Type} (sync : σ → Str → Bool × σ) (total : Int) (e : Str)
    (s : LoopState σ) (h : LoopInvariant s) :
    LoopInvariant (forceSyncAllLogs.deliver sync total e s) := by
  obtain ⟨h1, h2⟩ := h
  unfold forceSyncAllLogs.deliver
  by_cases hs : (sync s.backend e).1 = true
  · simp only [hs, if_true]
    refine ⟨?_, ?_⟩
    · simp [failedEntries_append, h1, failedEntries, serialize]
    · simp [deliveredEntries_append, h2, deliveredEntries]
  · simp only [hs, Bool.false_eq_true, if_false]
    refine ⟨?_, ?_⟩
    · simp [failedEntries_append, serialize_append, h1, failedEntries, serialize]
    · simp [deliveredEntries_append, h2, deliveredEntries]

theorem deliverAll_invariant {σ : Type} (sync : σ → Str → Bool × σ) (total : Int) :
    ∀ (es : List Str) (s : LoopState σ), LoopInvariant s →
      LoopInvariant (deliverAll sync total es s) := by
  intro es
  induction es with
  | nil => intro s h; simpa [deliverAll] using h
  | cons e es ih =>
    intro s h
    rw [deliverAll]
    exact ih _ (deliver_invariant sync total e s h)

theorem initialLoopState_invariant {σ : Type} (g : Globals σ) :
    LoopInvariant (initialLoopState g) := by
  simp [LoopInvariant, initialLoopState, failedEntries, deliveredEntries, serialize]

/-! ## Reading back what the drain writes -/

theorem splitLines_append_newline (a b : Str) :
    splitLines (a ++ newline :: b) = splitLines a ++ splitLines b := by
  induction a with
  | nil => simp [splitLines]
  | cons c cs ih =>
    by_cases hc : c = newline
    · simp [splitLines, hc, ih]
    · have hne := splitLines_ne_nil cs
      rw [List.cons_append, splitLines, if_neg hc, ih, splitLines, if_neg hc]
      cases hsp : splitLines cs with
      | nil => exact absurd hsp hne
      | cons l ls => simp

theorem splitLines_of_no_newline (a : Str) (h : newline ∉ a) : splitLines a = [a] := by
  induction a with
  | nil => simp [splitLines]
  | cons c cs ih =>
    have hc : c ≠ newline := fun hc => h (by simp [hc])
    have hcs : newline ∉ cs := fun hcs => h (by simp [hcs])
    simp [splitLines, hc, ih hcs]

theorem splitLines_no_newline (u : Str) : ∀ l ∈ splitLines u, newline ∉ l := by
  induction u with
  | nil => simp [splitLines]
  | cons c cs ih =>
    by_cases hc : c = newline
    · simp only [splitLines, hc, if_true]
      intro l hl
      rcases List.mem_cons.mp hl with h | h
      · simp [h]
      · exact ih l h
    · simp only [splitLines, hc, if_false]
      cases hsp : splitLines cs with
      | nil => simp [Ne.symm hc]
      | cons l0 ls =>
        rw [hsp] at ih
        intro l hl
        rcases List.mem_cons.mp hl with h | h
        · subst h
          have := ih l0 (by simp)
          simp [Ne.symm hc, this]
        · exact ih l (by simp [h])

theorem entriesOfText_append_newline (a b : Str) :
    entriesOfText (a ++ newline :: b) = entriesOfText a ++ entriesOfText b := by
  simp [entriesOfText, splitLines_append_newline]

theorem entriesOfText_of_no_newline (a : Str) (h : newline ∉ a) (ht : trim a ≠ []) :
    entriesOfText a = [trim a] := by
  simp [entriesOfText, splitLines_of_no_newline a h, ht]

theorem entriesOfText_serialize (es : List Str) (h : ∀ e ∈ es, WellFormedEntry e) :
    entriesOfText (serialize es) = es := by
  induction es with
  | nil => simp [serialize, entriesOfText_nil]
  | cons e es ih =>
    obtain ⟨h1, h2, h3⟩ := h e (by simp)
    have ih := ih (fun x hx => h x (by simp [hx]))
    have he : entriesOfText e = [e] := by
      rw [entriesOfText_of_no_newline e h3 (by rw [h2]; exact h1), h2]
    simp only [serialize, List.append_assoc, List.singleton_append]
    rw [entriesOfText_append_newline, he, ih]
    rfl

theorem dropWhile_eq_self_of_initial {p : Char → Bool} {a u : Str} (hu : List.dropWhile p u = u)
    (hpre : a <+: u) : List.dropWhile p a = a := by
  cases a with
  | nil => simp
  | cons x xs =>
    obtain ⟨t, ht⟩ := hpre
    by_cases hx : p x = true
    · exfalso
      rw [← ht, List.cons_append, List.dropWhile_cons, if_pos hx] at hu
      have := (List.dropWhile_suffix (l := xs ++ t) p).length_le
      rw [hu] at this
      simp at this
    · simp [List.dropWhile_cons, hx]

theorem trim_trim (s : Str) : trim (trim s) = trim s := by
  unfold trim
  rw [dropWhile_eq_self_of_initial (List.dropWhile_idempotent isspace s)
      ( List.rdropWhile_prefix _ _),
    List.rdropWhile_idempotent]

theorem trim_sublist (s : Str) : (trim s).Sublist s := by
  unfold trim
  exact (( List.rdropWhile_prefix _ _).sublist).trans (List.dropWhile_suffix _).sublist

theorem entriesOfText_wellFormed (u : Str) : ∀ e ∈ entriesOfText u, WellFormedEntry e := by
  intro e he
  simp only [entriesOfText, List.mem_filter, List.mem_map, decide_eq_true_eq] at he
  obtain ⟨⟨l, hl, rfl⟩, hne⟩ := he
  refine ⟨hne, trim_trim l, ?_⟩
  intro hmem
  exact splitLines_no_newline u l hl ((trim_sublist l).subset hmem)

/-! ## The drain as a whole -/

theorem forceSyncAllLogs_eq {σ : Type} (fs : FsBehaviour) (sync : σ → Str → Bool × σ)
    (g : Globals σ) (content : Str) (hfile : g.backlog = some content)
    (hread : fs.openReadOk = true) (hcount : g.offlineLogsCount ≠ 0) :
    forceSyncAllLogs fs sync g =
      .ok (forceSyncAllLogs.finish fs g
        (deliverAll sync g.offlineLogsCount (entriesOfText content) (initialLoopState g))) := by
  unfold forceSyncAllLogs
  simp only [hread, if_true, hfile]
  rw [loop_eq_deliverAll sync g.offlineLogsCount hcount content.length content _ (Nat.le_refl _)]

theorem serialize_eq_nil_iff (es : List Str) : serialize es = [] ↔ es = [] := by
  cases es with
  | nil => simp [serialize]
  | cons e es => simp [serialize]

theorem finish_calls {σ : Type} (fs : FsBehaviour) (g : Globals σ) (s : LoopState σ) :
    (forceSyncAllLogs.finish fs g s).calls = s.calls := by
  unfold forceSyncAllLogs.finish
  split <;> rfl

/-- The file after the rewrite, when some entry failed: the text of the failed
entries if the file opens for writing, the old file if it does not. -/
theorem finish_backlog_of_failed {σ : Type} (fs : FsBehaviour) (g : Globals σ)
    (s : LoopState σ) (hinv : LoopInvariant s) (hfailed : failedEntries s.calls ≠ []) :
    (forceSyncAllLogs.finish fs g s).globals.backlog =
      if fs.openWriteOk then some (serialize (failedEntries s.calls)) else g.backlog := by
  have hne : s.tempContent ≠ [] := by
    rw [hinv.1]
    exact fun h => hfailed ((serialize_eq_nil_iff _).1 h)
  have hlen : s.tempContent.length > 0 := List.length_pos.mpr hne
  unfold forceSyncAllLogs.finish
  simp only [hlen, if_true]
  by_cases hw : fs.openWriteOk = true
  · simp [hw, runFsCalls, FsCall.apply, hinv.1]
  · simp [hw, runFsCalls, FsCall.apply]

/-- The file after the rewrite, when no entry failed: removed if the removal
succeeds, the old file if it does not. -/
theorem finish_backlog_of_none_failed {σ : Type} (fs : FsBehaviour) (g : Globals σ)
    (s : LoopState σ) (hinv : LoopInvariant s) (hfailed : failedEntries s.calls = []) :
    (forceSyncAllLogs.finish fs g s).globals.backlog =
      if fs.removeOk then none else g.backlog := by
  have hlen : ¬ s.tempContent.length > 0 := by
    rw [hinv.1, hfailed]
    simp [serialize]
  unfold forceSyncAllLogs.finish
  simp only [hlen, if_false]
  by_cases hr : fs.removeOk = true
  · simp [hr, runFsCalls, FsCall.apply]
  · simp [hr, runFsCalls, FsCall.apply]

theorem failedEntries_subset (calls : List (Str × Bool)) :
    ∀ e ∈ failedEntries calls, e ∈ calls.map (fun c => c.1) := by
  intro e he
  simp only [failedEntries, List.mem_map, List.mem_filter] at he
  obtain ⟨c, ⟨hc, _⟩, rfl⟩ := he
  exact List.mem_map_of_mem _ hc

/-- With working file operations the rewritten file holds exactly the failed
entries of the calls made. -/
theorem finish_fileEntries {σ : Type} (fs : FsBehaviour) (g : Globals σ) (s : LoopState σ)
    (hinv : LoopInvariant s) (hwrite : fs.openWriteOk = true) (hremove : fs.removeOk = true)
    (hwf : ∀ e ∈ s.calls.map (fun c => c.1), WellFormedEntry e) :
    fileEntries (forceSyncAllLogs.finish fs g s).globals.backlog = failedEntries s.calls := by
  by_cases hfailed : failedEntries s.calls = []
  · rw [finish_backlog_of_none_failed fs g s hinv hfailed, hremove, hfailed]
    rfl
  · rw [finish_backlog_of_failed fs g s hinv hfailed, hwrite]
    simp only [if_true, fileEntries]
    exact entriesOfText_serialize _ (fun e he => hwf e (failedEntries_subset _ e he))

theorem deliverAll_initial_calls_fst {σ : Type} (sync : σ → Str → Bool × σ) (total : Int)
    (g : Globals σ) (es : List Str) :
    (deliverAll sync total es (initialLoopState g)).calls.map (fun c => c.1) = es := by
  rw [deliverAll_calls_fst]
  simp [initialLoopState]

theorem failedEntries_map_pure (d : Str → Bool) (es : List Str) :
    failedEntries (es.map (fun e => (e, d e))) = es.filter (fun e => !d e) := by
  induction es with
  | nil => rfl
  | cons e es ih =>
    simp only [failedEntries] at ih
    by_cases h : d e = true
    · simp [failedEntries, List.filter_cons, h, ih]
    · simp [failedEntries, List.filter_cons, h, ih]

theorem deliveredEntries_map_pure (d : Str → Bool) (es : List Str) :
    deliveredEntries (es.map (fun e => (e, d e))) = es.filter (fun e => d e) := by
  induction es with
  | nil => rfl
  | cons e es ih =>
    simp only [deliveredEntries] at ih
    by_cases h : d e = true
    · simp [deliveredEntries, List.filter_cons, h, ih]
    · simp [deliveredEntries, List.filter_cons, h, ih]

theorem deliver_backend {σ : Type} (sync : σ → Str → Bool × σ) (total : Int) (e : Str)
    (s : LoopState σ) :
    (forceSyncAllLogs.deliver sync total e s).backend = (sync s.backend e).2 := by
  unfold forceSyncAllLogs.deliver
  split <;> rfl

theorem deliverAll_calls {σ : Type} (sync : σ → Str → Bool × σ) (total : Int) :
    ∀ (es : List Str) (s : LoopState σ),
      (deliverAll sync total es s).calls =
        s.calls ++ es.zip (deliveryResults sync s.backend es) := by
  intro es
  induction es with
  | nil => intro s; simp [deliverAll, deliveryResults]
  | cons e es ih =>
    intro s
    rw [deliverAll, ih, deliver_calls, deliver_backend]
    simp [deliveryResults]

theorem deliveryResults_pure {σ : Type} (sync : σ → Str → Bool × σ) (d : Str → Bool)
    (hd : ∀ b e, (sync b e).1 = d e) :
    ∀ (es : List Str) (b : σ), es.zip (deliveryResults sync b es) = es.map (fun e => (e, d e)) := by
  intro es
  induction es with
  | nil => intro b; rfl
  | cons e es ih => intro b; simp [deliveryResults, ih, hd]

/-- The run of the drain on a file that opens, with a non-zero counter: it ends
normally, the calls made are the entries of the file paired with the results
of their deliveries, and the loop invariant holds at the end. -/
theorem forceSyncAllLogs_run {σ : Type} (fs : FsBehaviour) (sync : σ → Str → Bool × σ)
    (g : Globals σ) (content : Str) (hfile : g.backlog = some content)
    (hread : fs.openReadOk = true) (hcount : g.offlineLogsCount ≠ 0) :
    ∃ s : LoopState σ,
      forceSyncAllLogs fs sync g = .ok (forceSyncAllLogs.finish fs g s) ∧
      LoopInvariant s ∧
      s.calls = (entriesOfText content).zip
        (deliveryResults sync g.backend (entriesOfText content)) ∧
      s.calls.map (fun c => c.1) = entriesOfText content := by
  refine ⟨deliverAll sync g.offlineLogsCount (entriesOfText content) (initialLoopState g),
    forceSyncAllLogs_eq fs sync g content hfile hread hcount,
    deliverAll_invariant _ _ _ _ (initialLoopState_invariant g), ?_,
    deliverAll_initial_calls_fst _ _ _ _⟩
  rw [deliverAll_calls]
  simp [initialLoopState]

/-! ## The properties of the drain -/

/-- C1: for every content of the backlog file and every delivery function,
after `forceSyncAllLogs` (reached with a non-zero `offlineLogsCount`, the file
operations succeeding) the backlog holds exactly the entries whose delivery
returned failure, in their original order: the entries of the file paired with
the results of their deliveries, those with result `false` kept. For a delivery
whose result depends on the entry alone these are the entries it fails on, and
no entry it succeeds on is left. -/
theorem forceSyncAllLogs_keeps_exactly_failed {σ : Type} (fs : FsBehaviour)
    (sync : σ → Str → Bool × σ) (g : Globals σ) (content : Str)
    (hfile : g.backlog = some content) (hread : fs.openReadOk = true)
    (hwrite : fs.openWriteOk = true) (hremove : fs.removeOk = true)
    (hcount : g.offlineLogsCount ≠ 0) :
    ∃ r : SyncResult σ, forceSyncAllLogs fs sync g = .ok r ∧
      fileEntries r.globals.backlog =
        failedEntries ((entriesOfText content).zip
          (deliveryResults sync g.backend (entriesOfText content))) ∧
      (∀ d : Str → Bool, (∀ b e, (sync b e).1 = d e) →
        fileEntries r.globals.backlog = (entriesOfText content).filter (fun e => !d e) ∧
        ∀ e ∈ fileEntries r.globals.backlog, d e = false) := by
  obtain ⟨s, hrun, hinv, hcalls, hfst⟩ := forceSyncAllLogs_run fs sync g content hfile hread hcount
  have hwf : ∀ e ∈ s.calls.map (fun c => c.1), WellFormedEntry e := by
    rw [hfst]
    exact entriesOfText_wellFormed content
  have hkept := finish_fileEntries fs g s hinv hwrite hremove hwf
  rw [hcalls] at hkept
  refine ⟨_, hrun, hkept, ?_⟩
  intro d hd
  rw [hkept, deliveryResults_pure sync d hd, failedEntries_map_pure]
  refine ⟨rfl, ?_⟩
  intro e he
  have := (List.mem_filter.mp he).2
  simpa using this

/-- C1, the scenario of the specification: of the entries `T1`, `T2`, `T3`, with
`T1` and `T3` delivered and `T2` failing, only `T2` is left. -/
theorem forceSyncAllLogs_keeps_exactly_failed_witness :
    ∃ r : SyncResult Unit,
      forceSyncAllLogs fsAllOk failT2 (terminalWith "T1\nT2\nT3\n" 3) = .ok r ∧
      fileEntries r.globals.backlog = ["T2".toList] ∧
      r.globals.backlog = some "T2\n".toList := by
  obtain ⟨r, hrun, hkept, _⟩ :=
    forceSyncAllLogs_keeps_exactly_failed fsAllOk failT2 (terminalWith "T1\nT2\nT3\n" 3)
      "T1\nT2\nT3\n".toList rfl rfl rfl rfl (by decide)
  refine ⟨r, hrun, ?_, ?_⟩
  · rw [hkept]
    decide
  · have h2 : forceSyncAllLogs fsAllOk failT2 (terminalWith "T1\nT2\nT3\n" 3) =
        .ok (forceSyncAllLogs.finish fsAllOk (terminalWith "T1\nT2\nT3\n" 3)
          (deliverAll failT2 3 (entriesOfText "T1\nT2\nT3\n".toList)
            (initialLoopState (terminalWith "T1\nT2\nT3\n" 3)))) :=
      forceSyncAllLogs_eq _ _ _ _ rfl rfl (by decide)
    rw [h2] at hrun
    cases hrun
    decide

/-- C2: for every content of the backlog file, `forceSyncAllLogs` passes the
entries to `syncSingleLog` in the order they have in the file, each entry once:
the arguments of the calls are the list of the entries, each call recorded with
the value the delivery returned; so when every delivery succeeds the entries
delivered are the entries of the file in file order. -/
theorem forceSyncAllLogs_calls_in_file_order {σ : Type} (fs : FsBehaviour)
    (sync : σ → Str → Bool × σ) (g : Globals σ) (content : Str)
    (hfile : g.backlog = some content) (hread : fs.openReadOk = true)
    (hcount : g.offlineLogsCount ≠ 0) :
    ∃ r : SyncResult σ, forceSyncAllLogs fs sync g = .ok r ∧
      r.calls.map (fun c => c.1) = entriesOfText content ∧
      r.calls = (entriesOfText content).zip
        (deliveryResults sync g.backend (entriesOfText content)) ∧
      ((∀ b e, (sync b e).1 = true) → deliveredEntries r.calls = entriesOfText content) := by
  obtain ⟨s, hrun, _, hcalls, hfst⟩ := forceSyncAllLogs_run fs sync g content hfile hread hcount
  refine ⟨_, hrun, ?_, ?_, ?_⟩
  · rw [finish_calls]; exact hfst
  · rw [finish_calls]; exact hcalls
  · intro hall
    rw [finish_calls, hcalls, deliveryResults_pure sync (fun _ => true) hall,
      deliveredEntries_map_pure]
    simp

/-- C2 on the file `T1`, `T2`, `T3` with every delivery succeeding: three calls,
in file order. -/
theorem forceSyncAllLogs_calls_in_file_order_witness :
    ∃ r : SyncResult Unit,
      forceSyncAllLogs fsAllOk succeedAll (terminalWith "T1\nT2\nT3\n" 3) = .ok r ∧
      r.calls = [("T1".toList, true), ("T2".toList, true), ("T3".toList, true)] := by
  obtain ⟨r, hrun, _, hcalls, _⟩ :=
    forceSyncAllLogs_calls_in_file_order fsAllOk succeedAll (terminalWith "T1\nT2\nT3\n" 3)
      "T1\nT2\nT3\n".toList rfl rfl (by decide)
  refine ⟨r, hrun, ?_⟩
  rw [hcalls]
  decide

/-- C3 as stated fails: a file with the one line `T1` ended by carriage return
and newline, every delivery failing, is rewritten as `T1` ended by a newline
alone. -/
theorem forceSyncAllLogs_all_fail_changes_bytes :
    ∃ r : SyncResult Unit,
      forceSyncAllLogs fsAllOk failAll (terminalWith "T1\r\n" 1) = .ok r ∧
      r.calls = [("T1".toList, false)] ∧
      r.globals.backlog = some "T1\n".toList ∧
      r.globals.backlog ≠ (terminalWith "T1\r\n" 1).backlog := by
  refine ⟨_, forceSyncAllLogs_eq _ _ _ "T1\r\n".toList rfl rfl (by decide), ?_, ?_, ?_⟩ <;>
    decide

/-- C3 amended: when every delivery fails and the file holds at least one entry,
the drain leaves the same entries in the same order, none lost and none
duplicated. The file is rewritten in normal form (each entry trimmed and
followed by one newline, empty lines dropped), so it is byte-for-byte what it
was exactly when it was in normal form already; a text made of well-formed
entries, each followed by a newline, is in normal form. -/
theorem forceSyncAllLogs_all_fail {σ : Type} (fs : FsBehaviour)
    (sync : σ → Str → Bool × σ) (g : Globals σ) (content : Str)
    (hfile : g.backlog = some content) (hread : fs.openReadOk = true)
    (hwrite : fs.openWriteOk = true) (hcount : g.offlineLogsCount ≠ 0)
    (hfail : ∀ b e, (sync b e).1 = false) (hentries : entriesOfText content ≠ []) :
    ∃ r : SyncResult σ, forceSyncAllLogs fs sync g = .ok r ∧
      fileEntries r.globals.backlog = fileEntries g.backlog ∧
      r.globals.backlog = some (serialize (entriesOfText content)) ∧
      (r.globals.backlog = g.backlog ↔ content = serialize (entriesOfText content)) ∧
      (∀ es : List Str, (∀ e ∈ es, WellFormedEntry e) → content = serialize es →
        r.globals.backlog = g.backlog) := by
  obtain ⟨s, hrun, hinv, hcalls, _⟩ := forceSyncAllLogs_run fs sync g content hfile hread hcount
  have hfailed : failedEntries s.calls = entriesOfText content := by
    rw [hcalls, deliveryResults_pure sync (fun _ => false) hfail, failedEntries_map_pure]
    simp
  have hback : (forceSyncAllLogs.finish fs g s).globals.backlog =
      some (serialize (entriesOfText content)) := by
    rw [finish_backlog_of_failed fs g s hinv (by rw [hfailed]; exact hentries), hwrite, hfailed]
    rfl
  refine ⟨_, hrun, ?_, hback, ?_, ?_⟩
  · rw [hback, hfile]
    exact entriesOfText_serialize _ (entriesOfText_wellFormed content)
  · rw [hback, hfile]
    constructor
    · intro h; exact (Option.some.inj h).symm
    · intro h; rw [← h]
  · intro es hes hcontent
    rw [hback, hfile, hcontent, entriesOfText_serialize es hes]

/-- C3 amended, on the file of the two lines `T1` and `T2`: nothing changes. -/
theorem forceSyncAllLogs_all_fail_witness :
    ∃ r : SyncResult Unit,
      forceSyncAllLogs fsAllOk failAll (terminalWith "T1\nT2\n" 2) = .ok r ∧
      r.globals.backlog = some "T1\nT2\n".toList := by
  obtain ⟨r, hrun, _, _, _, hsame⟩ :=
    forceSyncAllLogs_all_fail fsAllOk failAll (terminalWith "T1\nT2\n" 2) "T1\nT2\n".toList
      rfl rfl rfl (by decide) (fun _ _ => rfl) (by decide)
  exact ⟨r, hrun, hsame ["T1".toList, "T2".toList] (by decide) (by decide)⟩

theorem finish_fsCalls_of_failed {σ : Type} (fs : FsBehaviour) (g : Globals σ)
    (s : LoopState σ) (hinv : LoopInvariant s) (hfailed : failedEntries s.calls ≠ []) :
    (forceSyncAllLogs.finish fs g s).fsCalls =
      [FsCall.openRead OFFLINE_LOGS_FILE true, FsCall.close OFFLINE_LOGS_FILE] ++
        (if fs.openWriteOk then
          [FsCall.openWrite OFFLINE_LOGS_FILE true,
            FsCall.print OFFLINE_LOGS_FILE (serialize (failedEntries s.calls)),
            FsCall.close OFFLINE_LOGS_FILE]
        else [FsCall.openWrite OFFLINE_LOGS_FILE false]) := by
  have hne : s.tempContent ≠ [] := by
    rw [hinv.1]
    exact fun h => hfailed ((serialize_eq_nil_iff _).1 h)
  have hlen : s.tempContent.length > 0 := List.length_pos.mpr hne
  unfold forceSyncAllLogs.finish
  simp only [hlen, if_true]
  rw [hinv.1]

theorem finish_fsCalls_of_none_failed {σ : Type} (fs : FsBehaviour) (g : Globals σ)
    (s : LoopState σ) (hinv : LoopInvariant s) (hfailed : failedEntries s.calls = []) :
    (forceSyncAllLogs.finish fs g s).fsCalls =
      [FsCall.openRead OFFLINE_LOGS_FILE true, FsCall.close OFFLINE_LOGS_FILE,
        FsCall.remove OFFLINE_LOGS_FILE fs.removeOk] := by
  have hlen : ¬ s.tempContent.length > 0 := by
    rw [hinv.1, hfailed]
    simp [serialize]
  unfold forceSyncAllLogs.finish
  simp only [hlen, if_false]

/-- C4 as stated fails: on a file with the one entry `T1` whose delivery fails,
the drain opens the backlog file itself for a truncating write, and between
that call and the `print` the file is empty, which is neither its content
before the drain nor its content after it. -/
theorem forceSyncAllLogs_truncates_backlog :
    ∃ r : SyncResult Unit,
      forceSyncAllLogs fsAllOk failAll (terminalWith "T1\n" 1) = .ok r ∧
      FsCall.openWrite OFFLINE_LOGS_FILE true ∈ r.fsCalls ∧
      some [] ∈ backlogHistory (terminalWith "T1\n" 1).backlog r.fsCalls ∧
      some [] ≠ (terminalWith "T1\n" 1).backlog ∧
      some [] ≠ r.globals.backlog := by
  refine ⟨_, forceSyncAllLogs_eq _ _ _ "T1\n".toList rfl rfl (by decide), ?_, ?_, ?_, ?_⟩ <;>
    decide

/-- C4 amended: the drain rewrites the backlog in place. Every file-system
call it makes is on the backlog file, so there is no temporary file. When some
delivery failed and the file opens for writing, the calls are: open for
reading, close, open the backlog file for a truncating write, print the failed
entries, close; the file is empty between the open and the print. When no
delivery failed the calls are: open for reading, close, remove. -/
theorem forceSyncAllLogs_rewrites_in_place {σ : Type} (fs : FsBehaviour)
    (sync : σ → Str → Bool × σ) (g : Globals σ) (content : Str)
    (hfile : g.backlog = some content) (hread : fs.openReadOk = true)
    (hcount : g.offlineLogsCount ≠ 0) :
    ∃ r : SyncResult σ, forceSyncAllLogs fs sync g = .ok r ∧
      (∀ c ∈ r.fsCalls, c.path = OFFLINE_LOGS_FILE) ∧
      (failedEntries r.calls ≠ [] → fs.openWriteOk = true →
        r.fsCalls =
          [FsCall.openRead OFFLINE_LOGS_FILE true, FsCall.close OFFLINE_LOGS_FILE,
            FsCall.openWrite OFFLINE_LOGS_FILE true,
            FsCall.print OFFLINE_LOGS_FILE (serialize (failedEntries r.calls)),
            FsCall.close OFFLINE_LOGS_FILE] ∧
        backlogHistory g.backlog r.fsCalls =
          [some content, some content, some content, some [],
            some (serialize (failedEntries r.calls)),
            some (serialize (failedEntries r.calls))]) ∧
      (failedEntries r.calls = [] →
        r.fsCalls =
          [FsCall.openRead OFFLINE_LOGS_FILE true, FsCall.close OFFLINE_LOGS_FILE,
            FsCall.remove OFFLINE_LOGS_FILE fs.removeOk] ∧
        backlogHistory g.backlog r.fsCalls =
          [some content, some content, some content,
            if fs.removeOk then none else some content]) := by
  obtain ⟨s, hrun, hinv, _, _⟩ := forceSyncAllLogs_run fs sync g content hfile hread hcount
  refine ⟨_, hrun, ?_, ?_, ?_⟩
  · intro c hc
    by_cases hfailed : failedEntries s.calls = []
    · rw [finish_fsCalls_of_none_failed fs g s hinv hfailed] at hc
      simp only [List.mem_cons, List.mem_singleton, List.not_mem_nil, or_false] at hc
      rcases hc with rfl | rfl | rfl <;> rfl
    · rw [finish_fsCalls_of_failed fs g s hinv hfailed] at hc
      by_cases hw : fs.openWriteOk = true
      · simp only [hw, if_true, List.mem_append, List.mem_cons, List.mem_singleton,
          List.not_mem_nil, or_false] at hc
        rcases hc with (rfl | rfl) | rfl | rfl | rfl <;> rfl
      · simp only [hw, Bool.false_eq_true, if_false, List.mem_append, List.mem_cons,
          List.mem_singleton, List.not_mem_nil, or_false] at hc
        rcases hc with (rfl | rfl) | rfl <;> rfl
  · rw [finish_calls]
    intro hfailed hw
    rw [finish_fsCalls_of_failed fs g s hinv hfailed, hfile]
    simp [hw, backlogHistory, FsCall.apply]
  · rw [finish_calls]
    intro hfailed
    rw [finish_fsCalls_of_none_failed fs g s hinv hfailed, hfile]
    by_cases hr : fs.removeOk = true
    · simp [hr, backlogHistory, FsCall.apply]
    · simp [hr, backlogHistory, FsCall.apply]

/-- C4 amended, on the file `T1`, `T2` with `T2` failing: the five calls and the
six contents of the file. -/
theorem forceSyncAllLogs_rewrites_in_place_witness :
    ∃ r : SyncResult Unit,
      forceSyncAllLogs fsAllOk failT2 (terminalWith "T1\nT2\n" 2) = .ok r ∧
      backlogHistory (terminalWith "T1\nT2\n" 2).backlog r.fsCalls =
        [some "T1\nT2\n".toList, some "T1\nT2\n".toList, some "T1\nT2\n".toList,
          some [], some "T2\n".toList, some "T2\n".toList] := by
  obtain ⟨r, hrun, _, hwrite, _⟩ :=
    forceSyncAllLogs_rewrites_in_place fsAllOk failT2 (terminalWith "T1\nT2\n" 2)
      "T1\nT2\n".toList rfl rfl (by decide)
  have h2 := forceSyncAllLogs_eq fsAllOk failT2 (terminalWith "T1\nT2\n" 2)
    "T1\nT2\n".toList rfl rfl (by decide)
  rw [h2] at hrun
  cases hrun
  refine ⟨_, h2, ?_⟩
  rw [(hwrite (by decide) rfl).2]
  decide

/-- C5 as stated fails: on the file `T1`, `T2` with every delivery failing, `T2`
is passed to `syncSingleLog` although it follows the entry `T1` whose delivery
failed. -/
theorem forceSyncAllLogs_continues_after_failure :
    ∃ r : SyncResult Unit,
      forceSyncAllLogs fsAllOk failAll (terminalWith "T1\nT2\n" 2) = .ok r ∧
      r.calls = [("T1".toList, false), ("T2".toList, false)] := by
  refine ⟨_, forceSyncAllLogs_eq _ _ _ "T1\nT2\n".toList rfl rfl (by decide), ?_⟩
  decide

/-- C5 amended: `forceSyncAllLogs` does not abort the pass on a failed
delivery. Every entry of the file is passed to `syncSingleLog`, whatever the
results of the deliveries before it, and every entry whose delivery failed is
in the backlog afterwards. -/
theorem forceSyncAllLogs_attempts_every_entry {σ : Type} (fs : FsBehaviour)
    (sync : σ → Str → Bool × σ) (g : Globals σ) (content : Str)
    (hfile : g.backlog = some content) (hread : fs.openReadOk = true)
    (hwrite : fs.openWriteOk = true) (hcount : g.offlineLogsCount ≠ 0) :
    ∃ r : SyncResult σ, forceSyncAllLogs fs sync g = .ok r ∧
      r.calls.map (fun c => c.1) = entriesOfText content ∧
      (∀ e ∈ entriesOfText content, ∃ res : Bool, (e, res) ∈ r.calls) ∧
      (∀ e : Str, (e, false) ∈ r.calls → e ∈ fileEntries r.globals.backlog) := by
  obtain ⟨s, hrun, hinv, _, hfst⟩ := forceSyncAllLogs_run fs sync g content hfile hread hcount
  refine ⟨_, hrun, ?_, ?_, ?_⟩
  · rw [finish_calls]; exact hfst
  · rw [finish_calls]
    intro e he
    rw [← hfst] at he
    obtain ⟨c, hc, rfl⟩ := List.mem_map.mp he
    exact ⟨c.2, hc⟩
  · rw [finish_calls]
    intro e he
    have hmem : e ∈ failedEntries s.calls := by
      simp only [failedEntries, List.mem_map, List.mem_filter]
      exact ⟨(e, false), ⟨he, rfl⟩, rfl⟩
    have hfailed : failedEntries s.calls ≠ [] := List.ne_nil_of_mem hmem
    rw [finish_backlog_of_failed fs g s hinv hfailed, hwrite]
    simp only [if_true, fileEntries]
    rw [entriesOfText_serialize _ (fun x hx => by
      have := failedEntries_subset _ x hx
      rw [hfst] at this
      exact entriesOfText_wellFormed content x this)]
    exact hmem

/-- C5 amended, on the file `T1`, `T2`, `T3` with `T2` failing: `T3` is still
attempted and `T2` is still in the backlog. -/
theorem forceSyncAllLogs_attempts_every_entry_witness :
    ∃ r : SyncResult Unit,
      forceSyncAllLogs fsAllOk failT2 (terminalWith "T1\nT2\nT3\n" 3) = .ok r ∧
      r.calls.map (fun c => c.1) = ["T1".toList, "T2".toList, "T3".toList] := by
  obtain ⟨r, hrun, hfst, _, _⟩ :=
    forceSyncAllLogs_attempts_every_entry fsAllOk failT2 (terminalWith "T1\nT2\nT3\n" 3)
      "T1\nT2\nT3\n".toList rfl rfl rfl (by decide)
  refine ⟨r, hrun, ?_⟩
  rw [hfst]
  decide

/-- C6 as stated fails: on a file whose last line `T2` has no newline after it,
the drain passes `T2` to `syncSingleLog` and, its delivery failing, writes it
back into the backlog. -/
theorem forceSyncAllLogs_keeps_unterminated_line :
    ∃ r : SyncResult Unit,
      forceSyncAllLogs fsAllOk failAll (terminalWith "T1\nT2" 2) = .ok r ∧
      r.calls = [("T1".toList, false), ("T2".toList, false)] ∧
      r.globals.backlog = some "T1\nT2\n".toList := by
  refine ⟨_, forceSyncAllLogs_eq _ _ _ "T1\nT2".toList rfl rfl (by decide), ?_, ?_⟩ <;>
    decide

/-- C6 amended: a last line that no newline ends is handled like every other
line. Trimmed, and not empty, it is passed to `syncSingleLog` as the last
entry, after the entries of the lines before it; with working file operations
the backlog afterwards holds the failed ones of the entries before it, followed
by the last line (trimmed, a newline added) when its delivery failed and by
nothing when it succeeded. The drain ends normally. -/
theorem forceSyncAllLogs_unterminated_line {σ : Type} (fs : FsBehaviour)
    (sync : σ → Str → Bool × σ) (g : Globals σ) (complete tail : Str)
    (hfile : g.backlog = some (complete ++ tail))
    (hcomplete : complete = [] ∨ ∃ b, complete = b ++ [newline])
    (htail : newline ∉ tail) (htrim : trim tail ≠ [])
    (hread : fs.openReadOk = true) (hcount : g.offlineLogsCount ≠ 0) :
    ∃ r : SyncResult σ, forceSyncAllLogs fs sync g = .ok r ∧
      ∃ (before : List (Str × Bool)) (res : Bool),
        r.calls = before ++ [(trim tail, res)] ∧
        before.map (fun c => c.1) = entriesOfText complete ∧
        (fs.openWriteOk = true → fs.removeOk = true →
          fileEntries r.globals.backlog =
            failedEntries before ++ (if res then [] else [trim tail])) := by
  have hentries : entriesOfText (complete ++ tail) = entriesOfText complete ++ [trim tail] := by
    rcases hcomplete with rfl | ⟨b, rfl⟩
    · simp [entriesOfText_nil, entriesOfText_of_no_newline tail htail htrim]
    · rw [List.append_assoc, List.singleton_append, entriesOfText_append_newline,
        entriesOfText_append_newline, entriesOfText_nil, List.append_nil,
        entriesOfText_of_no_newline tail htail htrim]
  obtain ⟨s, hrun, hinv, _, hfst⟩ :=
    forceSyncAllLogs_run fs sync g (complete ++ tail) hfile hread hcount
  have hwf : ∀ e ∈ s.calls.map (fun c => c.1), WellFormedEntry e := by
    rw [hfst]
    exact entriesOfText_wellFormed _
  have hdec := hfst
  rw [hentries, List.map_eq_append_iff] at hdec
  obtain ⟨before, last, hsplit, hbefore, hlast⟩ := hdec
  refine ⟨_, hrun, ?_⟩
  rw [finish_calls]
  match last, hlast with
  | [(t, res)], hlast =>
    have ht : t = trim tail := by simpa using hlast
    subst ht
    refine ⟨before, res, hsplit, hbefore, ?_⟩
    intro hw hr
    rw [finish_fileEntries fs g s hinv hw hr hwf, hsplit, failedEntries_append]
    cases res <;> simp [failedEntries]

/-- C6 amended, on the file `T1`, newline, `T2` with `T2` failing: `T2` is the
last call and is what the backlog holds afterwards. -/
theorem forceSyncAllLogs_unterminated_line_witness :
    ∃ r : SyncResult Unit,
      forceSyncAllLogs fsAllOk failT2 (terminalWith "T1\nT2" 2) = .ok r ∧
      r.calls.map (fun c => c.1) = ["T1".toList, "T2".toList] ∧
      fileEntries r.globals.backlog = ["T2".toList] := by
  obtain ⟨r, hrun, before, res, hcalls, hbefore, hkept⟩ :=
    forceSyncAllLogs_unterminated_line fsAllOk failT2 (terminalWith "T1\nT2" 2)
      "T1\n".toList "T2".toList rfl (Or.inr ⟨"T1".toList, rfl⟩) (by decide) (by decide)
      rfl (by decide)
  have h2 := forceSyncAllLogs_eq fsAllOk failT2 (terminalWith "T1\nT2" 2)
    "T1\nT2".toList rfl rfl (by decide)
  rw [h2] at hrun
  cases hrun
  refine ⟨_, h2, ?_, ?_⟩
  · rw [hcalls, List.map_append, hbefore, List.map_cons, List.map_nil]
    show entriesOfText "T1\n".toList ++ [trim "T2".toList] = ["T1".toList, "T2".toList]
    decide
  · decide

/-- C7: after a run of `forceSyncAllLogs` (on a file that opens, with a
non-zero `offlineLogsCount`, the removal succeeding) in which every delivery
succeeds, the backlog file is removed and `offlineLogsCount` is 0; a second run
right after it, whatever the delivery function and the file system do then,
ends normally, makes no call to `syncSingleLog`, and leaves the file removed
and `offlineLogsCount` equal to 0. -/
theorem forceSyncAllLogs_twice {σ : Type} (fs : FsBehaviour)
    (sync : σ → Str → Bool × σ) (g : Globals σ) (content : Str)
    (hfile : g.backlog = some content) (hread : fs.openReadOk = true)
    (hremove : fs.removeOk = true) (hcount : g.offlineLogsCount ≠ 0)
    (hall : ∀ b e, (sync b e).1 = true) :
    ∃ r₁ : SyncResult σ, forceSyncAllLogs fs sync g = .ok r₁ ∧
      r₁.globals.backlog = none ∧ r₁.globals.offlineLogsCount = 0 ∧
      ∀ (fs₂ : FsBehaviour) (sync₂ : σ → Str → Bool × σ),
        ∃ r₂ : SyncResult σ, forceSyncAllLogs fs₂ sync₂ r₁.globals = .ok r₂ ∧
          r₂.calls = [] ∧ r₂.globals.backlog = none ∧ r₂.globals.offlineLogsCount = 0 := by
  obtain ⟨s, hrun, hinv, hcalls, _⟩ := forceSyncAllLogs_run fs sync g content hfile hread hcount
  have hfailed : failedEntries s.calls = [] := by
    rw [hcalls, deliveryResults_pure sync (fun _ => true) hall, failedEntries_map_pure]
    simp
  have hback : (forceSyncAllLogs.finish fs g s).globals.backlog = none := by
    rw [finish_backlog_of_none_failed fs g s hinv hfailed, hremove]
    rfl
  have hzero : (forceSyncAllLogs.finish fs g s).globals.offlineLogsCount = 0 := by
    have hlen : ¬ s.tempContent.length > 0 := by
      rw [hinv.1, hfailed]
      simp [serialize]
    unfold forceSyncAllLogs.finish
    simp only [hlen, if_false]
  refine ⟨_, hrun, hback, hzero, ?_⟩
  intro fs₂ sync₂
  refine ⟨{ globals := (forceSyncAllLogs.finish fs g s).globals, calls := [], progress := [],
            fsCalls := [FsCall.openRead OFFLINE_LOGS_FILE false] }, ?_, rfl, hback, hzero⟩
  unfold forceSyncAllLogs
  rw [hback]
  simp

/-- C7 on the file `T1`, `T2`, `T3` with every delivery succeeding. -/
theorem forceSyncAllLogs_twice_witness :
    ∃ r₁ : SyncResult Unit,
      forceSyncAllLogs fsAllOk succeedAll (terminalWith "T1\nT2\nT3\n" 3) = .ok r₁ ∧
      r₁.globals.backlog = none ∧ r₁.globals.offlineLogsCount = 0 ∧
      ∃ r₂ : SyncResult Unit, forceSyncAllLogs fsAllOk succeedAll r₁.globals = .ok r₂ ∧
        r₂.calls = [] ∧ r₂.globals.offlineLogsCount = 0 := by
  obtain ⟨r₁, hrun, hback, hzero, hsecond⟩ :=
    forceSyncAllLogs_twice fsAllOk succeedAll (terminalWith "T1\nT2\nT3\n" 3)
      "T1\nT2\nT3\n".toList rfl rfl rfl (by decide) (fun _ _ => rfl)
  obtain ⟨r₂, hrun₂, hcalls₂, _, hzero₂⟩ := hsecond fsAllOk succeedAll
  exact ⟨r₁, hrun, hback, hzero, r₂, hrun₂, hcalls₂, hzero₂⟩

/-- C8: in every state in which `isOnline` is false, the Force Sync entry of the
admin menu (`handleAdminMenuSelection` with selection 3) ends normally, makes
no call to `syncSingleLog` and no call to the file system, and leaves the
globals, the backlog file and `offlineLogsCount` among them, as they were. -/
theorem handleAdminMenuSelection_offline {σ : Type} (fs : FsBehaviour)
    (sync : σ → Str → Bool × σ)
    (menuAction : Int → Globals σ → Except Fault (SyncResult σ)) (g : Globals σ)
    (hoffline : g.isOnline = false) :
    ∃ r : SyncResult σ, handleAdminMenuSelection fs sync menuAction 3 g = .ok r ∧
      r.calls = [] ∧ r.fsCalls = [] ∧ r.globals = g ∧
      r.globals.backlog = g.backlog ∧ r.globals.offlineLogsCount = g.offlineLogsCount := by
  refine ⟨{ globals := g, calls := [], progress := [], fsCalls := [] }, ?_, rfl, rfl, rfl,
    rfl, rfl⟩
  simp [handleAdminMenuSelection, hoffline]

/-- C8 on an offline terminal with three entries waiting. -/
theorem handleAdminMenuSelection_offline_witness :
    ∃ r : SyncResult Unit,
      handleAdminMenuSelection fsAllOk succeedAll (fun _ g => forceSyncAllLogs fsAllOk succeedAll g)
        3 { terminalWith "T1\nT2\nT3\n" 3 with isOnline := false } = .ok r ∧
      r.calls = [] ∧ r.globals.backlog = some "T1\nT2\nT3\n".toList ∧
      r.globals.offlineLogsCount = 3 := by
  obtain ⟨r, hrun, hcalls, _, _, hback, hcount⟩ :=
    handleAdminMenuSelection_offline fsAllOk succeedAll
      (fun _ g => forceSyncAllLogs fsAllOk succeedAll g)
      { terminalWith "T1\nT2\nT3\n" 3 with isOnline := false } rfl
  exact ⟨r, hrun, hcalls, hback, hcount⟩

/-! ## Validation of tags -/

theorem char_eq_of_toNat {c : Char} {n : Nat} (h : c.toNat = n) : c = Char.ofNat n := by
  rw [← h]
  exact (Char.ofNat_toNat c).symm

theorem char_le_iff (a b : Char) : a ≤ b ↔ a.toNat ≤ b.toNat := by
  rw [Char.le_def]
  exact Iff.rfl

/-- The test of the loop of `isValidRfidTag` holds exactly of the sixteen
upper-case hexadecimal digits. -/
theorem hexTest_iff (c : Char) :
    ((decide ('0' ≤ c) && decide (c ≤ '9')) || (decide ('A' ≤ c) && decide (c ≤ 'F'))) = true ↔
      c ∈ upperHexDigits := by
  constructor
  · intro h
    simp only [Bool.or_eq_true, Bool.and_eq_true, decide_eq_true_eq, char_le_iff] at h
    have h0 : ('0' : Char).toNat = 48 := by decide
    have h9 : ('9' : Char).toNat = 57 := by decide
    have hA : ('A' : Char).toNat = 65 := by decide
    have hF : ('F' : Char).toNat = 70 := by decide
    rw [h0, h9, hA, hF] at h
    rcases h with ⟨h1, h2⟩ | ⟨h1, h2⟩
    · have hc : c.toNat = 48 ∨ c.toNat = 49 ∨ c.toNat = 50 ∨ c.toNat = 51 ∨ c.toNat = 52 ∨
          c.toNat = 53 ∨ c.toNat = 54 ∨ c.toNat = 55 ∨ c.toNat = 56 ∨ c.toNat = 57 := by omega
      rcases hc with hc | hc | hc | hc | hc | hc | hc | hc | hc | hc <;>
        (rw [char_eq_of_toNat hc]; decide)
    · have hc : c.toNat = 65 ∨ c.toNat = 66 ∨ c.toNat = 67 ∨ c.toNat = 68 ∨ c.toNat = 69 ∨
          c.toNat = 70 := by omega
      rcases hc with hc | hc | hc | hc | hc | hc <;>
        (rw [char_eq_of_toNat hc]; decide)
  · intro h
    simp only [upperHexDigits] at h
    revert c
    decide

theorem isValidRfidTag_loop_iff (tag : Str) :
    isValidRfidTag.loop tag = true ↔ ∀ c ∈ tag, c ∈ upperHexDigits := by
  induction tag with
  | nil => simp [isValidRfidTag.loop]
  | cons c cs ih =>
    by_cases hc : ((decide ('0' ≤ c) && decide (c ≤ '9')) ||
        (decide ('A' ≤ c) && decide (c ≤ 'F'))) = true
    · have hmem := (hexTest_iff c).1 hc
      rw [isValidRfidTag.loop, hc]
      simp [ih, hmem]
    · have hmem : c ∉ upperHexDigits := fun h => hc ((hexTest_iff c).2 h)
      rw [isValidRfidTag.loop, Bool.not_eq_true _ |>.mp hc]
      simp [hmem]

theorem lowerHex_not_upperHex : ∀ c ∈ lowerHexLetters, c ∉ upperHexDigits := by
  decide

/-- C9: for every string `tag`, `isValidRfidTag(tag)` is true if and only if
the length of `tag` is between 8 and 20 inclusive and every character is one of
`0`-`9` or upper-case `A`-`F`; a tag that contains a lower-case hexadecimal
letter is rejected, and so is a tag of length 7 or 21. -/
theorem isValidRfidTag_iff (tag : Str) :
    (isValidRfidTag tag = true ↔
      (8 ≤ tag.length ∧ tag.length ≤ 20 ∧ ∀ c ∈ tag, c ∈ upperHexDigits)) ∧
    ((∃ c ∈ tag, c ∈ lowerHexLetters) → isValidRfidTag tag = false) ∧
    ((tag.length = 7 ∨ tag.length = 21) → isValidRfidTag tag = false) := by
  have hiff : isValidRfidTag tag = true ↔
      (8 ≤ tag.length ∧ tag.length ≤ 20 ∧ ∀ c ∈ tag, c ∈ upperHexDigits) := by
    unfold isValidRfidTag
    by_cases hlen : (decide (tag.length < MIN_RFID_TAG_LENGTH) ||
        decide (tag.length > MAX_RFID_TAG_LENGTH)) = true
    · rw [if_pos hlen]
      simp only [Bool.or_eq_true, decide_eq_true_eq, MIN_RFID_TAG_LENGTH,
        MAX_RFID_TAG_LENGTH] at hlen
      constructor
      · intro h; exact absurd h (by simp)
      · rintro ⟨h1, h2, _⟩; omega
    · rw [if_neg hlen, isValidRfidTag_loop_iff]
      simp only [Bool.or_eq_true, decide_eq_true_eq, MIN_RFID_TAG_LENGTH,
        MAX_RFID_TAG_LENGTH, not_or, not_lt] at hlen
      constructor
      · intro h; exact ⟨hlen.1, by omega, h⟩
      · rintro ⟨_, _, h⟩; exact h
  refine ⟨hiff, ?_, ?_⟩
  · rintro ⟨c, hc, hlow⟩
    rw [← Bool.not_eq_true]
    intro hvalid
    exact lowerHex_not_upperHex c hlow ((hiff.1 hvalid).2.2 c hc)
  · intro hlen
    rw [← Bool.not_eq_true]
    intro hvalid
    have := hiff.1 hvalid
    omega

/-! ## Loading the configuration -/

theorem isValidUrl_default : isValidUrl DEFAULT_BACKEND_URL = true := by decide

theorem espPrefix_ne_nil (mac : Str) : "ESP_".toList ++ formatMacAddress mac ≠ [] := by
  simp

theorem ensureDefaults_deviceId_ne_nil (mac : Str) (c : Config) :
    (loadJsonConfiguration.ensureDefaults mac c).deviceId ≠ [] := by
  unfold loadJsonConfiguration.ensureDefaults
  by_cases h : c.deviceId.length = 0
  · simp only [h, if_true]
    exact espPrefix_ne_nil mac
  · simp only [h, if_false]
    exact fun hnil => h (by rw [hnil]; rfl)

theorem ensureDefaults_backendUrl (mac : Str) (c : Config) :
    (loadJsonConfiguration.ensureDefaults mac c).backendUrl =
      if c.backendUrl = [] then DEFAULT_BACKEND_URL else c.backendUrl := by
  unfold loadJsonConfiguration.ensureDefaults
  by_cases h : c.backendUrl = []
  · simp [h]
  · have hlen : ¬ c.backendUrl.length = 0 := fun hl => h (List.eq_nil_of_length_eq_zero hl)
    simp [h, hlen]

/-- C10 as stated fails: with the config file missing and `backendUrl` holding
an address without scheme, `loadJsonConfiguration` returns false and leaves
`backendUrl` as it was, which `isValidUrl` rejects. -/
theorem loadJsonConfiguration_keeps_invalid_url :
    loadJsonConfiguration "AA:BB:CC:DD:EE:FF".toList ConfigFile.missing
        { backendUrl := "192.168.1.10:3000".toList, deviceId := "ESP_01".toList } =
      (false, { backendUrl := "192.168.1.10:3000".toList, deviceId := "ESP_01".toList }) ∧
    isValidUrl "192.168.1.10:3000".toList = false := by
  decide

/-- C10 amended: on every path (config file missing, parse error, successful
parse) and for every prior `backendUrl` and `deviceId`, `loadJsonConfiguration`
returns and `deviceId` is not empty afterwards. After a successful parse
`backendUrl` satisfies `isValidUrl`. When the file is missing or does not
parse, `backendUrl` is `DEFAULT_BACKEND_URL` if it was empty and is left as it
was otherwise; so it satisfies `isValidUrl` afterwards when it was empty or
valid before. -/
theorem loadJsonConfiguration_defaults (mac : Str) (file : ConfigFile) (c : Config) :
    (loadJsonConfiguration mac file c).2.deviceId ≠ [] ∧
    ((∃ doc, file = ConfigFile.parsed doc) →
      isValidUrl (loadJsonConfiguration mac file c).2.backendUrl = true) ∧
    ((file = ConfigFile.missing ∨ file = ConfigFile.parseError) →
      (loadJsonConfiguration mac file c).2.backendUrl =
        if c.backendUrl = [] then DEFAULT_BACKEND_URL else c.backendUrl) ∧
    ((c.backendUrl = [] ∨ isValidUrl c.backendUrl = true) →
      isValidUrl (loadJsonConfiguration mac file c).2.backendUrl = true) := by
  have hparsed : ∀ doc,
      isValidUrl (loadJsonConfiguration mac (ConfigFile.parsed doc) c).2.backendUrl = true := by
    intro doc
    simp only [loadJsonConfiguration]
    cases hurl : doc.backendUrl with
    | none => exact isValidUrl_default
    | some v =>
      by_cases hlen : v.length > 0
      · by_cases hv : isValidUrl v = true
        · simp [hlen, hv]
        · simp [hlen, hv, isValidUrl_default]
      · simp [hlen, isValidUrl_default]
  have hprior : (c.backendUrl = [] ∨ isValidUrl c.backendUrl = true) →
      isValidUrl (loadJsonConfiguration.ensureDefaults mac c).backendUrl = true := by
    intro h
    rw [ensureDefaults_backendUrl]
    by_cases hnil : c.backendUrl = []
    · simp [hnil, isValidUrl_default]
    · rcases h with h | h
      · exact absurd h hnil
      · simp [hnil, h]
  cases file with
  | missing =>
    refine ⟨ensureDefaults_deviceId_ne_nil mac c, ?_, ?_, hprior⟩
    · rintro ⟨doc, hdoc⟩; cases hdoc
    · intro _; exact ensureDefaults_backendUrl mac c
  | parseError =>
    refine ⟨ensureDefaults_deviceId_ne_nil mac c, ?_, ?_, hprior⟩
    · rintro ⟨doc, hdoc⟩; cases hdoc
    · intro _; exact ensureDefaults_backendUrl mac c
  | parsed doc =>
    refine ⟨?_, fun _ => hparsed doc, ?_, fun _ => hparsed doc⟩
    · simp only [loadJsonConfiguration]
      cases hid : doc.deviceId with
      | none => exact espPrefix_ne_nil mac
      | some v =>
        by_cases hlen : v.length > 0
        · simp only [hlen, if_true]
          exact List.length_pos.mp hlen
        · simp only [hlen, if_false]
          exact espPrefix_ne_nil mac
    · rintro (h | h) <;> cases h

/-- C11: when the config file opens and parses, `loadJsonConfiguration` returns
true; `backendUrl` becomes the stored value if the key is present, the value
not empty and accepted by `isValidUrl`, and `DEFAULT_BACKEND_URL` otherwise;
`deviceId` becomes the stored value if the key is present and the value not
empty, and `"ESP_"` followed by the formatted MAC address (colons removed,
upper case) otherwise. -/
theorem loadJsonConfiguration_parsed (mac : Str) (doc : JsonConfig) (c : Config) :
    (loadJsonConfiguration mac (ConfigFile.parsed doc) c).1 = true ∧
    (∀ v, doc.backendUrl = some v → v ≠ [] → isValidUrl v = true →
      (loadJsonConfiguration mac (ConfigFile.parsed doc) c).2.backendUrl = v) ∧
    ((¬ ∃ v, doc.backendUrl = some v ∧ v ≠ [] ∧ isValidUrl v = true) →
      (loadJsonConfiguration mac (ConfigFile.parsed doc) c).2.backendUrl =
        DEFAULT_BACKEND_URL) ∧
    (∀ v, doc.deviceId = some v → v ≠ [] →
      (loadJsonConfiguration mac (ConfigFile.parsed doc) c).2.deviceId = v) ∧
    ((¬ ∃ v, doc.deviceId = some v ∧ v ≠ []) →
      (loadJsonConfiguration mac (ConfigFile.parsed doc) c).2.deviceId =
        "ESP_".toList ++ formatMacAddress mac) ∧
    formatMacAddress "5c:cf:7f:12:ab:ef".toList = "5CCF7F12ABEF".toList := by
  have hpos : ∀ v : Str, v ≠ [] → v.length > 0 := fun v hv => List.length_pos.mpr hv
  refine ⟨rfl, ?_, ?_, ?_, ?_, by decide⟩
  · intro v hv hne hvalid
    simp [loadJsonConfiguration, hv, hpos v hne, hvalid]
  · intro hnone
    simp only [loadJsonConfiguration]
    cases hurl : doc.backendUrl with
    | none => rfl
    | some v =>
      by_cases hlen : v.length > 0
      · by_cases hvalid : isValidUrl v = true
        · exact absurd ⟨v, hurl, List.length_pos.mp hlen, hvalid⟩ hnone
        · simp [hlen, hvalid]
      · simp [hlen]
  · intro v hv hne
    simp [loadJsonConfiguration, hv, hpos v hne]
  · intro hnone
    simp only [loadJsonConfiguration]
    cases hid : doc.deviceId with
    | none => rfl
    | some v =>
      by_cases hlen : v.length > 0
      · exact absurd ⟨v, hid, List.length_pos.mp hlen⟩ hnone
      · simp [hlen]

/-! ## Validation of URLs -/

/-- C12: for every string `url`, `isValidUrl(url)` is true if and only if its
length is between `MIN_URL_LENGTH` (10) and `MAX_URL_LENGTH` (100) inclusive
and it starts with `"http://"` or with `"https://"`. -/
theorem isValidUrl_iff (url : Str) :
    MIN_URL_LENGTH = 10 ∧ MAX_URL_LENGTH = 100 ∧
    (isValidUrl url = true ↔
      (10 ≤ url.length ∧ url.length ≤ 100 ∧
        ("http://".toList <+: url ∨ "https://".toList <+: url))) := by
  refine ⟨rfl, rfl, ?_⟩
  unfold isValidUrl startsWith
  by_cases hlen : (decide (url.length < MIN_URL_LENGTH) ||
      decide (url.length > MAX_URL_LENGTH)) = true
  · rw [if_pos hlen]
    simp only [Bool.or_eq_true, decide_eq_true_eq, MIN_URL_LENGTH, MAX_URL_LENGTH] at hlen
    constructor
    · intro h; exact absurd h (by simp)
    · rintro ⟨h1, h2, _⟩; omega
  · rw [if_neg hlen]
    simp only [Bool.or_eq_true, decide_eq_true_eq, MIN_URL_LENGTH, MAX_URL_LENGTH, not_or,
      not_lt] at hlen
    have h1 : ("http://".toList.isPrefixOf url = true) ↔ "http://".toList <+: url :=
      List.isPrefixOf_iff_prefix
    have h2 : ("https://".toList.isPrefixOf url = true) ↔ "https://".toList <+: url :=
      List.isPrefixOf_iff_prefix
    by_cases hp1 : "http://".toList.isPrefixOf url = true
    · simp only [hp1, Bool.not_true, Bool.false_and, Bool.false_eq_true, if_false, true_iff]
      exact ⟨hlen.1, by omega, Or.inl (h1.1 hp1)⟩
    · by_cases hp2 : "https://".toList.isPrefixOf url = true
      · simp only [hp2, Bool.not_true, Bool.and_false, Bool.false_eq_true, if_false, true_iff]
        exact ⟨hlen.1, by omega, Or.inr (h2.1 hp2)⟩
      · have hp1f : "http://".toList.isPrefixOf url = false := (Bool.not_eq_true _).mp hp1
        have hp2f : "https://".toList.isPrefixOf url = false := (Bool.not_eq_true _).mp hp2
        simp only [hp1f, hp2f, Bool.not_false, Bool.and_self, if_true, Bool.false_eq_true,
          false_iff]
        rintro ⟨_, _, h | h⟩
        · exact hp1 (h1.2 h)
        · exact hp2 (h2.2 h)

/-! ## Time stamps -/

theorem toDigitsCore_last (fuel n : Nat) (ds : List Char) (h : n < 10) :
    Nat.toDigitsCore 10 (fuel + 1) n ds = Nat.digitChar n :: ds := by
  have h1 : n / 10 = 0 := Nat.div_eq_of_lt h
  have h2 : n % 10 = n := Nat.mod_eq_of_lt h
  simp [Nat.toDigitsCore, h1, h2]

theorem toDigitsCore_more (fuel n : Nat) (ds : List Char) (h : 10 ≤ n) :
    Nat.toDigitsCore 10 (fuel + 1) n ds =
      Nat.toDigitsCore 10 fuel (n / 10) (Nat.digitChar (n % 10) :: ds) := by
  have h1 : n / 10 ≠ 0 := by omega
  simp [Nat.toDigitsCore, h1]

theorem toDigits_lt_10 (n : Nat) (h : n < 10) : Nat.toDigits 10 n = [Nat.digitChar n] := by
  unfold Nat.toDigits
  exact toDigitsCore_last n n [] h

theorem toDigits_lt_100 (n : Nat) (h1 : 10 ≤ n) (h2 : n < 100) :
    Nat.toDigits 10 n = [Nat.digitChar (n / 10), Nat.digitChar (n % 10)] := by
  unfold Nat.toDigits
  obtain ⟨k, rfl⟩ : ∃ k, n = k + 1 := ⟨n - 1, by omega⟩
  rw [toDigitsCore_more _ _ _ h1, toDigitsCore_last _ _ _ (by omega)]

theorem toDigits_lt_1000 (n : Nat) (h1 : 100 ≤ n) (h2 : n < 1000) :
    Nat.toDigits 10 n =
      [Nat.digitChar (n / 10 / 10), Nat.digitChar (n / 10 % 10), Nat.digitChar (n % 10)] := by
  unfold Nat.toDigits
  obtain ⟨k, rfl⟩ : ∃ k, n = k + 2 := ⟨n - 2, by omega⟩
  rw [toDigitsCore_more _ _ _ (by omega), toDigitsCore_more _ _ _ (by omega),
    toDigitsCore_last _ _ _ (by omega)]

theorem toDigits_lt_10000 (n : Nat) (h1 : 1000 ≤ n) (h2 : n < 10000) :
    Nat.toDigits 10 n =
      [Nat.digitChar (n / 10 / 10 / 10), Nat.digitChar (n / 10 / 10 % 10),
        Nat.digitChar (n / 10 % 10), Nat.digitChar (n % 10)] := by
  unfold Nat.toDigits
  obtain ⟨k, rfl⟩ : ∃ k, n = k + 3 := ⟨n - 3, by omega⟩
  rw [toDigitsCore_more _ _ _ (by omega), toDigitsCore_more _ _ _ (by omega),
    toDigitsCore_more _ _ _ (by omega), toDigitsCore_last _ _ _ (by omega)]

theorem fixedDecimal_two (n : Nat) :
    fixedDecimal 2 n = [Nat.digitChar (n / 10 % 10), Nat.digitChar (n % 10)] := by
  simp [fixedDecimal, List.range_succ]

theorem fixedDecimal_four (n : Nat) :
    fixedDecimal 4 n =
      [Nat.digitChar (n / 1000 % 10), Nat.digitChar (n / 100 % 10),
        Nat.digitChar (n / 10 % 10), Nat.digitChar (n % 10)] := by
  simp [fixedDecimal, List.range_succ]

theorem sprintfZeroPadded_two (n : Nat) (h : n < 100) :
    sprintfZeroPadded 2 n = fixedDecimal 2 n := by
  rw [fixedDecimal_two]
  unfold sprintfZeroPadded
  by_cases h10 : n < 10
  · rw [toDigits_lt_10 n h10]
    have h1 : n / 10 % 10 = 0 := by omega
    have h2 : n % 10 = n := by omega
    rw [h1, h2]
    rfl
  · rw [toDigits_lt_100 n (by omega) h]
    have h1 : n / 10 % 10 = n / 10 := by omega
    rw [h1]
    rfl

theorem sprintfZeroPadded_four (n : Nat) (h : n < 10000) :
    sprintfZeroPadded 4 n = fixedDecimal 4 n := by
  rw [fixedDecimal_four]
  unfold sprintfZeroPadded
  by_cases h10 : n < 10
  · rw [toDigits_lt_10 n h10]
    have h1 : n / 1000 % 10 = 0 := by omega
    have h2 : n / 100 % 10 = 0 := by omega
    have h3 : n / 10 % 10 = 0 := by omega
    have h4 : n % 10 = n := by omega
    rw [h1, h2, h3, h4]
    rfl
  · by_cases h100 : n < 100
    · rw [toDigits_lt_100 n (by omega) h100]
      have h1 : n / 1000 % 10 = 0 := by omega
      have h2 : n / 100 % 10 = 0 := by omega
      have h3 : n / 10 % 10 = n / 10 := by omega
      rw [h1, h2, h3]
      rfl
    · by_cases h1000 : n < 1000
      · rw [toDigits_lt_1000 n (by omega) h1000]
        have h1 : n / 1000 % 10 = 0 := by omega
        have h2 : n / 100 % 10 = n / 10 / 10 := by omega
        rw [h1, h2]
        rfl
      · rw [toDigits_lt_10000 n (by omega) h]
        have h1 : n / 1000 % 10 = n / 10 / 10 / 10 := by omega
        have h2 : n / 100 % 10 = n / 10 / 10 % 10 := by omega
        rw [h1, h2]
        rfl

theorem digitChar_mem_decimalDigits (d : Nat) (h : d < 10) :
    Nat.digitChar d ∈ decimalDigits := by
  interval_cases d <;> decide

/-- In a text of nineteen characters with separators at positions 4, 7, 10, 13
and 16 and digits elsewhere, every position that is not a separator holds a
digit. -/
theorem timestamp_digit_positions (a b c d e f g h j k l m n o : Char) (s₁ s₂ s₃ s₄ s₅ : Char)
    (hdig : ∀ x ∈ [a, b, c, d, e, f, g, h, j, k, l, m, n, o], x ∈ decimalDigits) :
    ∀ i, i < 19 → i ∉ [4, 7, 10, 13, 16] →
      ∃ x, [a, b, c, d, s₁, e, f, s₂, g, h, s₃, j, k, s₄, l, m, s₅, n, o][i]? = some x ∧
        x ∈ decimalDigits := by
  intro i hi hsep
  simp only [List.mem_cons, List.mem_singleton, List.not_mem_nil, or_false, not_or] at hsep
  interval_cases i <;> first
    | omega
    | exact ⟨_, rfl, hdig _ (by simp)⟩

/-- C13: for every clock reading with year in 0..9999, month in 1..12, day in
1..31, hour in 0..23, minute in 0..59 and second in 0..59,
`getCurrentTimestamp` returns a string of exactly 19 characters of the form
`YYYY-MM-DDTHH:MM:SS`: the four decimal digits of the year and the two decimal
digits of each other field, zeros in front, with `-` at positions 4 and 7, `T`
at position 10 and `:` at positions 13 and 16, a decimal digit at every other
position; with its terminator it fits the buffer of 25 bytes. -/
theorem getCurrentTimestamp_format (now : DateTime)
    (hyear : now.year ≤ 9999)
    (hmonth : 1 ≤ now.month ∧ now.month ≤ 12)
    (hday : 1 ≤ now.day ∧ now.day ≤ 31)
    (hhour : now.hour ≤ 23) (hminute : now.minute ≤ 59) (hsecond : now.second ≤ 59) :
    ∃ s : Str, getCurrentTimestamp now = some s ∧
      s = fixedDecimal 4 now.year ++ ['-'] ++ fixedDecimal 2 now.month ++ ['-'] ++
          fixedDecimal 2 now.day ++ ['T'] ++ fixedDecimal 2 now.hour ++ [':'] ++
          fixedDecimal 2 now.minute ++ [':'] ++ fixedDecimal 2 now.second ∧
      s.length = 19 ∧
      s[4]? = some '-' ∧ s[7]? = some '-' ∧ s[10]? = some 'T' ∧
      s[13]? = some ':' ∧ s[16]? = some ':' ∧
      (∀ i, i < 19 → i ∉ [4, 7, 10, 13, 16] → ∃ c, s[i]? = some c ∧ c ∈ decimalDigits) ∧
      s.length + 1 ≤ 25 := by
  have hfmt : getCurrentTimestamp.formatted now =
      fixedDecimal 4 now.year ++ ['-'] ++ fixedDecimal 2 now.month ++ ['-'] ++
          fixedDecimal 2 now.day ++ ['T'] ++ fixedDecimal 2 now.hour ++ [':'] ++
          fixedDecimal 2 now.minute ++ [':'] ++ fixedDecimal 2 now.second := by
    unfold getCurrentTimestamp.formatted
    rw [sprintfZeroPadded_four _ (by omega), sprintfZeroPadded_two _ (by omega),
      sprintfZeroPadded_two _ (by omega), sprintfZeroPadded_two _ (by omega),
      sprintfZeroPadded_two _ (by omega), sprintfZeroPadded_two _ (by omega)]
  have hlen : (getCurrentTimestamp.formatted now).length = 19 := by
    rw [hfmt]
    simp [fixedDecimal_two, fixedDecimal_four]
  refine ⟨getCurrentTimestamp.formatted now, ?_, hfmt, hlen, ?_, ?_, ?_, ?_, ?_, ?_, ?_⟩
  · unfold getCurrentTimestamp
    rw [hlen]
    rfl
  · rw [hfmt]; simp [fixedDecimal_two, fixedDecimal_four]
  · rw [hfmt]; simp [fixedDecimal_two, fixedDecimal_four]
  · rw [hfmt]; simp [fixedDecimal_two, fixedDecimal_four]
  · rw [hfmt]; simp [fixedDecimal_two, fixedDecimal_four]
  · rw [hfmt]; simp [fixedDecimal_two, fixedDecimal_four]
  · have hd : ∀ d : Nat, Nat.digitChar (d % 10) ∈ decimalDigits := fun d =>
      digitChar_mem_decimalDigits _ (Nat.mod_lt _ (by decide))
    rw [hfmt, fixedDecimal_two, fixedDecimal_two, fixedDecimal_two, fixedDecimal_two,
      fixedDecimal_two, fixedDecimal_four]
    apply timestamp_digit_positions
    intro x hx
    simp only [List.mem_cons, List.mem_singleton, List.not_mem_nil, or_false] at hx
    rcases hx with rfl | rfl | rfl | rfl | rfl | rfl | rfl | rfl | rfl | rfl | rfl | rfl |
      rfl | rfl <;> exact hd _
  · rw [hlen]
    decide

/-- C13 on the reading 2025-08-16 09:05:00. -/
theorem getCurrentTimestamp_format_witness :
    getCurrentTimestamp
        { year := 2025, month := 8, day := 16, hour := 9, minute := 5, second := 0 } =
      some "2025-08-16T09:05:00".toList := by
  obtain ⟨s, hs, heq, _⟩ :=
    getCurrentTimestamp_format
      { year := 2025, month := 8, day := 16, hour := 9, minute := 5, second := 0 }
      (by decide) (by decide) (by decide) (by decide) (by decide) (by decide)
  rw [hs, heq]
  decide

/-! ## The health probe -/

/-- C14: `validateBackendConnection` returns true if and only if `isOnline` is
true and the GET request to `backendUrl + "/health"` yields the status code 200;
when `isOnline` is false it returns false without making a request; when
`isOnline` is true it makes that one request; it never changes `isOnline`. -/
theorem validateBackendConnection_iff {σ : Type} (httpGet : σ → Str → Int × σ)
    (isOnline : Bool) (backendUrl : Str) (network : σ) :
    ((validateBackendConnection httpGet isOnline backendUrl network).returned = true ↔
      (isOnline = true ∧ (httpGet network (backendUrl ++ "/health".toList)).1 = 200)) ∧
    (isOnline = false →
      (validateBackendConnection httpGet isOnline backendUrl network).returned = false ∧
      (validateBackendConnection httpGet isOnline backendUrl network).requests = [] ∧
      (validateBackendConnection httpGet isOnline backendUrl network).network = network) ∧
    (isOnline = true →
      (validateBackendConnection httpGet isOnline backendUrl network).requests =
        [backendUrl ++ "/health".toList]) ∧
    (validateBackendConnection httpGet isOnline backendUrl network).isOnline = isOnline := by
  cases isOnline with
  | false => simp [validateBackendConnection]
  | true => simp [validateBackendConnection]

/-! ## Constants -/

/-- C15: the debounce interval `CARD_READ_DELAY` is 2000 ms, so a repeat of the
same tag 500 ms after an accepted read falls inside the window and a repeat
2500 ms after it falls outside: 500 < `CARD_READ_DELAY` ≤ 2500. -/
theorem CARD_READ_DELAY_window :
    CARD_READ_DELAY = 2000 ∧ 500 < CARD_READ_DELAY ∧ CARD_READ_DELAY ≤ 2500 := by
  decide

/-- C16: the maximum number of backlog entries `MAX_OFFLINE_LOGS` is 1000: a
backlog of 1000 entries is at capacity and entry 1001 is the first one beyond
it. -/
theorem MAX_OFFLINE_LOGS_capacity :
    MAX_OFFLINE_LOGS = 1000 ∧ 1000 ≤ MAX_OFFLINE_LOGS ∧ MAX_OFFLINE_LOGS + 1 = 1001 ∧
      ¬ 1001 ≤ MAX_OFFLINE_LOGS := by
  decide

/-- C17 fails on the code: `SYNC_RETRY_INTERVAL` expands to `10*60*1000`, which
is 600000, ten minutes in milliseconds, and not the 60000 of one minute. -/
theorem SYNC_RETRY_INTERVAL_value :
    SYNC_RETRY_INTERVAL = 600000 ∧ SYNC_RETRY_INTERVAL = 10 * 60000 ∧
      SYNC_RETRY_INTERVAL ≠ 60000 := by
  decide

/-! ## Mounting the file system -/

/-- C20: formatting is a fallback only. When the first mount succeeds neither
`initializeFileSystem` nor `LittleFSCompat::begin` calls `format`, and the only
call is that mount; each returns true if and only if the first mount succeeds,
or the first mount fails and both the format and the second mount succeed; the
two functions give the same result, calls and device state included, for every
behaviour of the file system. -/
theorem initializeFileSystem_fallback {δ : Type} (littleFS : LittleFS δ) (d : δ) :
    ((littleFS.begin d).1 = true →
      (initializeFileSystem littleFS d).calls = [MountCall.begin] ∧
      MountCall.format ∉ (initializeFileSystem littleFS d).calls ∧
      MountCall.format ∉ (LittleFSCompat.begin littleFS d).calls) ∧
    ((initializeFileSystem littleFS d).returned = true ↔
      ((littleFS.begin d).1 = true ∨
        ((littleFS.begin d).1 = false ∧ (littleFS.format (littleFS.begin d).2).1 = true ∧
          (littleFS.begin (littleFS.format (littleFS.begin d).2).2).1 = true))) ∧
    ((LittleFSCompat.begin littleFS d).returned = true ↔
      ((littleFS.begin d).1 = true ∨
        ((littleFS.begin d).1 = false ∧ (littleFS.format (littleFS.begin d).2).1 = true ∧
          (littleFS.begin (littleFS.format (littleFS.begin d).2).2).1 = true))) ∧
    LittleFSCompat.begin littleFS d = initializeFileSystem littleFS d := by
  have hiff : (initializeFileSystem littleFS d).returned = true ↔
      ((littleFS.begin d).1 = true ∨
        ((littleFS.begin d).1 = false ∧ (littleFS.format (littleFS.begin d).2).1 = true ∧
          (littleFS.begin (littleFS.format (littleFS.begin d).2).2).1 = true)) := by
    unfold initializeFileSystem
    cases h1 : (littleFS.begin d).1 with
    | true => simp
    | false =>
      cases h2 : (littleFS.format (littleFS.begin d).2).1 with
      | false => simp
      | true =>
        cases h3 : (littleFS.begin (littleFS.format (littleFS.begin d).2).2).1 with
        | false => simp
        | true => simp
  have hsame : LittleFSCompat.begin littleFS d = initializeFileSystem littleFS d := rfl
  refine ⟨?_, hiff, ?_, hsame⟩
  · intro h1
    have hcalls : (initializeFileSystem littleFS d).calls = [MountCall.begin] := by
      unfold initializeFileSystem
      simp [h1]
    refine ⟨hcalls, ?_, ?_⟩
    · rw [hcalls]; decide
    · rw [hsame, hcalls]; decide
  · rw [hsame]; exact hiff

/-! ## The counter and the file -/

/-- The run of the drain on a file that opens, when the counter is not zero or
the file holds no entry: as `forceSyncAllLogs_run`. -/
theorem forceSyncAllLogs_run_of_safe {σ : Type} (fs : FsBehaviour)
    (sync : σ → Str → Bool × σ) (g : Globals σ) (content : Str)
    (hfile : g.backlog = some content) (hread : fs.openReadOk = true)
    (hsafe : entriesOfText content ≠ [] → g.offlineLogsCount ≠ 0) :
    ∃ s : LoopState σ,
      forceSyncAllLogs fs sync g = .ok (forceSyncAllLogs.finish fs g s) ∧
      LoopInvariant s ∧
      s.calls.map (fun c => c.1) = entriesOfText content := by
  by_cases hent : entriesOfText content = []
  · refine ⟨initialLoopState g, ?_, initialLoopState_invariant g, ?_⟩
    · unfold forceSyncAllLogs
      simp only [hread, if_true, hfile]
      rw [loop_no_entries sync g.offlineLogsCount content.length content _ (Nat.le_refl _) hent]
    · rw [hent]
      rfl
  · obtain ⟨s, hrun, hinv, _, hfst⟩ :=
      forceSyncAllLogs_run fs sync g content hfile hread (hsafe hent)
    exact ⟨s, hrun, hinv, hfst⟩

theorem failed_add_delivered (calls : List (Str × Bool)) :
    (failedEntries calls).length + (deliveredEntries calls).length = calls.length := by
  induction calls with
  | nil => rfl
  | cons c cs ih =>
    obtain ⟨e, res⟩ := c
    cases res
    · simp only [failedEntries, deliveredEntries, List.filter_cons, Bool.not_false, if_true,
        Bool.false_eq_true, if_false, List.map_cons, List.length_cons] at ih ⊢
      omega
    · simp only [failedEntries, deliveredEntries, List.filter_cons, Bool.not_true, if_true,
        Bool.false_eq_true, if_false, List.map_cons, List.length_cons] at ih ⊢
      omega

theorem finish_count_of_failed {σ : Type} (fs : FsBehaviour) (g : Globals σ)
    (s : LoopState σ) (hinv : LoopInvariant s) (hfailed : failedEntries s.calls ≠ []) :
    (forceSyncAllLogs.finish fs g s).globals.offlineLogsCount =
      g.offlineLogsCount - s.synced := by
  have hne : s.tempContent ≠ [] := by
    rw [hinv.1]
    exact fun h => hfailed ((serialize_eq_nil_iff _).1 h)
  have hlen : s.tempContent.length > 0 := List.length_pos.mpr hne
  unfold forceSyncAllLogs.finish
  simp only [hlen, if_true]

theorem finish_count_of_none_failed {σ : Type} (fs : FsBehaviour) (g : Globals σ)
    (s : LoopState σ) (hinv : LoopInvariant s) (hfailed : failedEntries s.calls = []) :
    (forceSyncAllLogs.finish fs g s).globals.offlineLogsCount = 0 := by
  have hlen : ¬ s.tempContent.length > 0 := by
    rw [hinv.1, hfailed]
    simp [serialize]
  unfold forceSyncAllLogs.finish
  simp only [hlen, if_false]

/-- With working write and removal the drain keeps the counter equal to the
number of entries in the file. -/
theorem forceSyncAllLogs_preserves_count {σ : Type} (fs : FsBehaviour)
    (sync : σ → Str → Bool × σ) (g : Globals σ) (hwrite : fs.openWriteOk = true)
    (hremove : fs.removeOk = true) (hcount : CountMatchesFile g) :
    ∃ r : SyncResult σ, forceSyncAllLogs fs sync g = .ok r ∧ CountMatchesFile r.globals := by
  cases hopen : (if fs.openReadOk then g.backlog else none) with
  | none =>
    refine ⟨{ globals := g, calls := [], progress := [],
              fsCalls := [FsCall.openRead OFFLINE_LOGS_FILE false] }, ?_, hcount⟩
    unfold forceSyncAllLogs
    rw [hopen]
  | some content =>
    have hread : fs.openReadOk = true := by
      by_contra h
      simp [h] at hopen
    have hfile : g.backlog = some content := by
      simpa [hread] using hopen
    have htotal : g.offlineLogsCount = ((entriesOfText content).length : Int) := by
      have := hcount
      unfold CountMatchesFile at this
      rw [hfile] at this
      exact this
    have hsafe : entriesOfText content ≠ [] → g.offlineLogsCount ≠ 0 := by
      intro hne
      rw [htotal]
      have := List.length_pos.mpr hne
      omega
    obtain ⟨s, hrun, hinv, hfst⟩ := forceSyncAllLogs_run_of_safe fs sync g content hfile hread hsafe
    refine ⟨_, hrun, ?_⟩
    have hwf : ∀ e ∈ s.calls.map (fun c => c.1), WellFormedEntry e := by
      rw [hfst]
      exact entriesOfText_wellFormed content
    have hkept := finish_fileEntries fs g s hinv hwrite hremove hwf
    have hlen : s.calls.length = (entriesOfText content).length := by
      rw [← hfst, List.length_map]
    have hsum := failed_add_delivered s.calls
    unfold CountMatchesFile
    rw [hkept]
    by_cases hfailed : failedEntries s.calls = []
    · rw [finish_count_of_none_failed fs g s hinv hfailed, hfailed]
      rfl
    · rw [finish_count_of_failed fs g s hinv hfailed, htotal, hinv.2]
      omega

/-- The function `clearOfflineLogs` keeps the counter equal to the number of
entries in the file, whether the removal succeeds or not. -/
theorem clearOfflineLogs_preserves_count {σ : Type} (fs : FsBehaviour) (g : Globals σ)
    (hcount : CountMatchesFile g) : CountMatchesFile (clearOfflineLogs fs g).2 := by
  unfold clearOfflineLogs
  by_cases h : (fs.removeOk && g.backlog.isSome) = true
  · rw [if_pos h]
    rfl
  · rw [if_neg h]
    exact hcount

/-- C18 fails on the code. On the file `T1`, `T2` with `offlineLogsCount` 2, `T1`
delivered and `T2` failing, when the file does not open for writing the file
keeps its two entries and `offlineLogsCount` becomes 1; with both delivered,
when the removal fails the file keeps its two entries and `offlineLogsCount`
becomes 0. What holds: `forceSyncAllLogs` keeps `offlineLogsCount` equal to the
number of entries in the file, for every delivery function, when the open for
writing and the removal succeed, and `clearOfflineLogs` keeps it for every
outcome of the removal. -/
theorem countMatchesFile_preservation :
    (CountMatchesFile (terminalWith "T1\nT2\n" 2) ∧
      ∃ r : SyncResult Unit,
        forceSyncAllLogs fsWriteFails failT2 (terminalWith "T1\nT2\n" 2) = .ok r ∧
        r.globals.backlog = some "T1\nT2\n".toList ∧ r.globals.offlineLogsCount = 1 ∧
        ¬ CountMatchesFile r.globals) ∧
    (∃ r : SyncResult Unit,
        forceSyncAllLogs fsRemoveFails succeedAll (terminalWith "T1\nT2\n" 2) = .ok r ∧
        r.globals.backlog = some "T1\nT2\n".toList ∧ r.globals.offlineLogsCount = 0 ∧
        ¬ CountMatchesFile r.globals) ∧
    (∀ (σ : Type) (fs : FsBehaviour) (sync : σ → Str → Bool × σ) (g : Globals σ),
      fs.openWriteOk = true → fs.removeOk = true → CountMatchesFile g →
      ∃ r : SyncResult σ, forceSyncAllLogs fs sync g = .ok r ∧ CountMatchesFile r.globals) ∧
    (∀ (σ : Type) (fs : FsBehaviour) (g : Globals σ),
      CountMatchesFile g → CountMatchesFile (clearOfflineLogs fs g).2) := by
  refine ⟨⟨by decide, _, forceSyncAllLogs_eq _ _ _ "T1\nT2\n".toList rfl rfl (by decide),
      by decide, by decide, by decide⟩,
    ⟨_, forceSyncAllLogs_eq _ _ _ "T1\nT2\n".toList rfl rfl (by decide),
      by decide, by decide, by decide⟩, ?_, ?_⟩
  · intro σ fs sync g hwrite hremove hcount
    exact forceSyncAllLogs_preserves_count fs sync g hwrite hremove hcount
  · intro σ fs g hcount
    exact clearOfflineLogs_preserves_count fs g hcount

/-! ## The progress denominator -/

theorem deliverAll_total_irrelevant {σ : Type} (sync : σ → Str → Bool × σ) (t₁ t₂ : Int) :
    ∀ (es : List Str) (s₁ s₂ : LoopState σ),
      s₁.synced = s₂.synced → s₁.tempContent = s₂.tempContent → s₁.backend = s₂.backend →
      s₁.calls = s₂.calls →
      (deliverAll sync t₁ es s₁).synced = (deliverAll sync t₂ es s₂).synced ∧
      (deliverAll sync t₁ es s₁).tempContent = (deliverAll sync t₂ es s₂).tempContent ∧
      (deliverAll sync t₁ es s₁).backend = (deliverAll sync t₂ es s₂).backend ∧
      (deliverAll sync t₁ es s₁).calls = (deliverAll sync t₂ es s₂).calls := by
  intro es
  induction es with
  | nil =>
    intro s₁ s₂ h1 h2 h3 h4
    exact ⟨h1, h2, h3, h4⟩
  | cons e es ih =>
    intro s₁ s₂ h1 h2 h3 h4
    rw [deliverAll, deliverAll]
    apply ih
    · unfold forceSyncAllLogs.deliver
      rw [h3]
      split <;> simp [h1]
    · unfold forceSyncAllLogs.deliver
      rw [h3]
      split <;> simp [h2]
    · rw [deliver_backend, deliver_backend, h3]
    · rw [deliver_calls, deliver_calls, h3, h4]

/-- The rewrite after the loop depends on the counter only for the counter. -/
theorem finish_total_irrelevant {σ : Type} (fs : FsBehaviour) (g₁ g₂ : Globals σ)
    (s₁ s₂ : LoopState σ) (hfile : g₁.backlog = g₂.backlog)
    (htemp : s₁.tempContent = s₂.tempContent) (hbackend : s₁.backend = s₂.backend)
    (hcalls : s₁.calls = s₂.calls) :
    (forceSyncAllLogs.finish fs g₁ s₁).calls = (forceSyncAllLogs.finish fs g₂ s₂).calls ∧
    (forceSyncAllLogs.finish fs g₁ s₁).fsCalls = (forceSyncAllLogs.finish fs g₂ s₂).fsCalls ∧
    (forceSyncAllLogs.finish fs g₁ s₁).globals.backlog =
      (forceSyncAllLogs.finish fs g₂ s₂).globals.backlog ∧
    (forceSyncAllLogs.finish fs g₁ s₁).globals.backend =
      (forceSyncAllLogs.finish fs g₂ s₂).globals.backend := by
  unfold forceSyncAllLogs.finish
  rw [htemp, hfile, hbackend, hcalls]
  by_cases hlen : s₂.tempContent.length > 0
  · simp only [hlen, if_true, and_self]
  · simp only [hlen, if_false, and_self]

/-- C19: the drain does not depend on the progress denominator. For every
backlog file, delivery function and file-system behaviour, and for any two
positive initial values of `offlineLogsCount`, the two runs of
`forceSyncAllLogs` end normally, make the same sequence of `syncSingleLog`
calls with the same results, make the same file-system calls and leave the same
backlog file and the same backend state. -/
theorem forceSyncAllLogs_count_irrelevant {σ : Type} (fs : FsBehaviour)
    (sync : σ → Str → Bool × σ) (g₁ g₂ : Globals σ)
    (hfile : g₁.backlog = g₂.backlog) (hbackend : g₁.backend = g₂.backend)
    (hpos₁ : 0 < g₁.offlineLogsCount) (hpos₂ : 0 < g₂.offlineLogsCount) :
    ∃ r₁ r₂ : SyncResult σ,
      forceSyncAllLogs fs sync g₁ = .ok r₁ ∧ forceSyncAllLogs fs sync g₂ = .ok r₂ ∧
      r₁.calls = r₂.calls ∧ r₁.fsCalls = r₂.fsCalls ∧
      r₁.globals.backlog = r₂.globals.backlog ∧ r₁.globals.backend = r₂.globals.backend := by
  cases hopen : (if fs.openReadOk then g₁.backlog else none) with
  | none =>
    have hopen₂ : (if fs.openReadOk then g₂.backlog else none) = none := by
      rw [← hfile]; exact hopen
    refine ⟨{ globals := g₁, calls := [], progress := [],
              fsCalls := [FsCall.openRead OFFLINE_LOGS_FILE false] },
            { globals := g₂, calls := [], progress := [],
              fsCalls := [FsCall.openRead OFFLINE_LOGS_FILE false] },
            ?_, ?_, rfl, rfl, hfile, hbackend⟩
    · unfold forceSyncAllLogs
      rw [hopen]
    · unfold forceSyncAllLogs
      rw [hopen₂]
  | some content =>
    have hread : fs.openReadOk = true := by
      by_contra h
      simp [h] at hopen
    have hfile₁ : g₁.backlog = some content := by
      simpa [hread] using hopen
    have hfile₂ : g₂.backlog = some content := by
      rw [← hfile]; exact hfile₁
    have hrun₁ := forceSyncAllLogs_eq fs sync g₁ content hfile₁ hread (by omega)
    have hrun₂ := forceSyncAllLogs_eq fs sync g₂ content hfile₂ hread (by omega)
    obtain ⟨_, htemp, hback, hcalls⟩ :=
      deliverAll_total_irrelevant sync g₁.offlineLogsCount g₂.offlineLogsCount
        (entriesOfText content) (initialLoopState g₁) (initialLoopState g₂) rfl rfl
        hbackend rfl
    obtain ⟨h1, h2, h3, h4⟩ := finish_total_irrelevant fs g₁ g₂ _ _ hfile htemp hback hcalls
    exact ⟨_, _, hrun₁, hrun₂, h1, h2, h3, h4⟩

/-- C19 on the file `T1`, `T2`, `T3` with `T2` failing, the counter being 3 in
one run and 7 in the other: the same three calls, the same file afterwards. -/
theorem forceSyncAllLogs_count_irrelevant_witness :
    ∃ r₁ r₂ : SyncResult Unit,
      forceSyncAllLogs fsAllOk failT2 (terminalWith "T1\nT2\nT3\n" 3) = .ok r₁ ∧
      forceSyncAllLogs fsAllOk failT2 (terminalWith "T1\nT2\nT3\n" 7) = .ok r₂ ∧
      r₁.calls = r₂.calls ∧ r₁.globals.backlog = r₂.globals.backlog := by
  obtain ⟨r₁, r₂, h1, h2, hcalls, _, hfile, _⟩ :=
    forceSyncAllLogs_count_irrelevant fsAllOk failT2 (terminalWith "T1\nT2\nT3\n" 3)
      (terminalWith "T1\nT2\nT3\n" 7) rfl rfl (by decide) (by decide)
  exact ⟨r₁, r₂, h1, h2, hcalls, hfile⟩

/-! ## The progress numbers -/

theorem progress_value_range (synced total : Int) (h0 : 0 ≤ synced) (hlt : synced < total) :
    0 ≤ (synced * 100).tdiv total ∧ (synced * 100).tdiv total ≤ 99 := by
  have hpos : 0 < total := by omega
  rw [Int.tdiv_eq_ediv (by omega) (by omega)]
  constructor
  · exact Int.ediv_nonneg (by omega) (by omega)
  · have : synced * 100 / total < 100 := Int.ediv_lt_of_lt_mul hpos (by omega)
    omega

theorem deliver_progress {σ : Type} (sync : σ → Str → Bool × σ) (total : Int) (e : Str)
    (s : LoopState σ) :
    (forceSyncAllLogs.deliver sync total e s).progress =
      s.progress ++ [(s.synced * 100).tdiv total] := by
  unfold forceSyncAllLogs.deliver
  split <;> rfl

theorem deliver_synced_le {σ : Type} (sync : σ → Str → Bool × σ) (total : Int) (e : Str)
    (s : LoopState σ) :
    s.synced ≤ (forceSyncAllLogs.deliver sync total e s).synced ∧
      (forceSyncAllLogs.deliver sync total e s).synced ≤ s.synced + 1 := by
  unfold forceSyncAllLogs.deliver
  split <;> simp

/-- Every progress number printed by the loop is `(synced * 100) / total` for a
`synced` from 0 up to, and not including, `total`, provided the entries still
to come and the calls made so far are no more than `total`. -/
theorem deliverAll_progress {σ : Type} (sync : σ → Str → Bool × σ) (total : Int) :
    ∀ (es : List Str) (s : LoopState σ),
      0 ≤ s.synced → s.synced ≤ (s.calls.length : Int) →
      (s.calls.length : Int) + (es.length : Int) ≤ total →
      (∀ p ∈ s.progress, ∃ k : Int, 0 ≤ k ∧ k < total ∧ p = (k * 100).tdiv total) →
      ∀ p ∈ (deliverAll sync total es s).progress,
        ∃ k : Int, 0 ≤ k ∧ k < total ∧ p = (k * 100).tdiv total := by
  intro es
  induction es with
  | nil =>
    intro s _ _ _ hgood
    simpa [deliverAll] using hgood
  | cons e es ih =>
    intro s h0 hle hroom hgood
    rw [deliverAll]
    have hsynced := deliver_synced_le sync total e s
    have hcalls : ((forceSyncAllLogs.deliver sync total e s).calls.length : Int) =
        (s.calls.length : Int) + 1 := by
      rw [deliver_calls]
      simp
    have hlen : ((e :: es).length : Int) = (es.length : Int) + 1 := by simp
    apply ih
    · omega
    · omega
    · omega
    · intro p hp
      rw [deliver_progress] at hp
      rcases List.mem_append.mp hp with hp | hp
      · exact hgood p hp
      · rw [List.mem_singleton] at hp
        exact ⟨s.synced, h0, by omega, hp⟩

theorem finish_progress {σ : Type} (fs : FsBehaviour) (g : Globals σ) (s : LoopState σ) :
    (forceSyncAllLogs.finish fs g s).progress = s.progress := by
  unfold forceSyncAllLogs.finish
  split <;> rfl

/-- C21: when `forceSyncAllLogs` is reached through the Force Sync guard
(`isOnline` and `offlineLogsCount > 0`) and `offlineLogsCount` is the number of
entries in the backlog file, the menu entry runs the drain, the drain ends
normally, so no progress number was computed with a zero divisor, and every
progress number it displays is `(synced * 100) / total` for some `synced` with
`0 ≤ synced < total` and lies between 0 and 99 inclusive. -/
theorem forceSyncAllLogs_progress_range {σ : Type} (fs : FsBehaviour)
    (sync : σ → Str → Bool × σ)
    (menuAction : Int → Globals σ → Except Fault (SyncResult σ)) (g : Globals σ)
    (honline : g.isOnline = true) (hpos : 0 < g.offlineLogsCount)
    (hcount : CountMatchesFile g) :
    ∃ r : SyncResult σ,
      handleAdminMenuSelection fs sync menuAction 3 g = .ok r ∧
      forceSyncAllLogs fs sync g = .ok r ∧
      g.offlineLogsCount ≠ 0 ∧
      ∀ p ∈ r.progress,
        (∃ synced : Int, 0 ≤ synced ∧ synced < g.offlineLogsCount ∧
          p = (synced * 100).tdiv g.offlineLogsCount) ∧
        0 ≤ p ∧ p ≤ 99 := by
  have hmenu : handleAdminMenuSelection fs sync menuAction 3 g = forceSyncAllLogs fs sync g := by
    simp [handleAdminMenuSelection, honline, hpos]
  have hrange : ∀ p : Int,
      (∃ k : Int, 0 ≤ k ∧ k < g.offlineLogsCount ∧ p = (k * 100).tdiv g.offlineLogsCount) →
      (∃ synced : Int, 0 ≤ synced ∧ synced < g.offlineLogsCount ∧
          p = (synced * 100).tdiv g.offlineLogsCount) ∧ 0 ≤ p ∧ p ≤ 99 := by
    rintro p ⟨k, hk0, hklt, rfl⟩
    exact ⟨⟨k, hk0, hklt, rfl⟩, progress_value_range k _ hk0 hklt⟩
  rw [hmenu]
  cases hopen : (if fs.openReadOk then g.backlog else none) with
  | none =>
    refine ⟨{ globals := g, calls := [], progress := [],
              fsCalls := [FsCall.openRead OFFLINE_LOGS_FILE false] }, ?_, ?_, by omega, ?_⟩
    · unfold forceSyncAllLogs
      rw [hopen]
    · unfold forceSyncAllLogs
      rw [hopen]
    · intro p hp
      simp at hp
  | some content =>
    have hread : fs.openReadOk = true := by
      by_contra h
      simp [h] at hopen
    have hfile : g.backlog = some content := by
      simpa [hread] using hopen
    have htotal : g.offlineLogsCount = ((entriesOfText content).length : Int) := by
      have := hcount
      unfold CountMatchesFile at this
      rw [hfile] at this
      exact this
    have hrun := forceSyncAllLogs_eq fs sync g content hfile hread (by omega)
    refine ⟨_, hrun, hrun, by omega, ?_⟩
    intro p hp
    rw [finish_progress] at hp
    apply hrange
    refine deliverAll_progress sync g.offlineLogsCount (entriesOfText content)
      (initialLoopState g) (by simp [initialLoopState]) (by simp [initialLoopState]) ?_ ?_ p hp
    · rw [htotal]
      simp [initialLoopState]
    · intro q hq
      simp [initialLoopState] at hq

/-- C21 on the file `T1`, `T2`, `T3` with the counter 3 and `T2` failing: the
numbers displayed are 0, 33 and 33. -/
theorem forceSyncAllLogs_progress_range_witness :
    ∃ r : SyncResult Unit,
      forceSyncAllLogs fsAllOk failT2 (terminalWith "T1\nT2\nT3\n" 3) = .ok r ∧
      r.progress = [0, 33, 33] ∧ ∀ p ∈ r.progress, 0 ≤ p ∧ p ≤ 99 := by
  obtain ⟨r, _, hrun, _, hrange⟩ :=
    forceSyncAllLogs_progress_range fsAllOk failT2
      (fun _ g => forceSyncAllLogs fsAllOk failT2 g) (terminalWith "T1\nT2\nT3\n" 3)
      rfl (by decide) (by decide)
  have h2 := forceSyncAllLogs_eq fsAllOk failT2 (terminalWith "T1\nT2\nT3\n" 3)
    "T1\nT2\nT3\n".toList rfl rfl (by decide)
  refine ⟨r, hrun, ?_, fun p hp => (hrange p hp).2⟩
  rw [h2] at hrun
  cases hrun
  decide

/-! ## Saving and loading the configuration -/

theorem isValidUrl_length_pos (url : Str) (h : isValidUrl url = true) : url.length > 0 := by
  unfold isValidUrl at h
  by_cases hlen : (decide (url.length < MIN_URL_LENGTH) ||
      decide (url.length > MAX_URL_LENGTH)) = true
  · rw [if_pos hlen] at h
    exact absurd h (by simp)
  · simp only [Bool.or_eq_true, decide_eq_true_eq, MIN_URL_LENGTH, not_or, not_lt] at hlen
    omega

theorem setString_of_room (slotBytes : Nat) (pool : JsonPool) (key value : Str)
    (h : pool.used + slotBytes + (value.length + 1) ≤ staticJsonDocumentCapacity) :
    JsonPool.setString slotBytes pool key value =
      { members := pool.members ++ [(key, JsonValue.str value)]
        used := pool.used + slotBytes + (value.length + 1) } := by
  unfold JsonPool.setString
  rw [if_neg (by omega), if_neg (by omega)]

theorem setInPlace_of_room (slotBytes : Nat) (pool : JsonPool) (key : Str) (value : JsonValue)
    (h : pool.used + slotBytes ≤ staticJsonDocumentCapacity) :
    JsonPool.setInPlace slotBytes pool key value =
      { members := pool.members ++ [(key, value)], used := pool.used + slotBytes } := by
  unfold JsonPool.setInPlace
  rw [if_neg (by omega)]

/-- When the two strings and the four members fit the pool, the file holds the
four members with the values assigned. -/
theorem saveConfiguration_of_room (slotBytes millis : Nat) (c : Config)
    (file : Option JsonDocument)
    (h : 4 * slotBytes + (c.backendUrl.length + 1) + (c.deviceId.length + 1) ≤
      staticJsonDocumentCapacity) :
    saveConfiguration slotBytes true millis c file =
      (true, some [("backendUrl".toList, JsonValue.str c.backendUrl),
          ("deviceId".toList, JsonValue.str c.deviceId),
          ("firmware".toList, JsonValue.str FIRMWARE_VERSION),
          ("lastUpdate".toList, JsonValue.num millis)]) := by
  unfold saveConfiguration
  simp only [Bool.not_true, Bool.false_eq_true, if_false]
  rw [setString_of_room slotBytes { members := [], used := 0 } _ _ (by dsimp only; omega)]
  rw [setString_of_room slotBytes
    { members := [] ++ [("backendUrl".toList, JsonValue.str c.backendUrl)]
      used := 0 + slotBytes + (c.backendUrl.length + 1) } _ _ (by dsimp only; omega)]
  rw [setInPlace_of_room slotBytes
    { members := [] ++ [("backendUrl".toList, JsonValue.str c.backendUrl)] ++
        [("deviceId".toList, JsonValue.str c.deviceId)]
      used := 0 + slotBytes + (c.backendUrl.length + 1) + slotBytes +
        (c.deviceId.length + 1) } _ _ (by dsimp only; omega)]
  rw [setInPlace_of_room slotBytes _ _ _ (by dsimp only; omega)]
  rfl

theorem setString_of_no_room (slotBytes : Nat) (pool : JsonPool) (key value : Str)
    (hslot : pool.used + slotBytes ≤ staticJsonDocumentCapacity)
    (hvalue : staticJsonDocumentCapacity < pool.used + slotBytes + (value.length + 1)) :
    JsonPool.setString slotBytes pool key value =
      { members := pool.members ++ [(key, JsonValue.null)], used := pool.used + slotBytes } := by
  unfold JsonPool.setString
  rw [if_neg (by omega), if_pos (by omega)]

theorem longDeviceId_length : longDeviceId.length = 600 := by
  unfold longDeviceId
  exact List.length_replicate ..

theorem saveConfiguration_longDeviceId :
    saveConfiguration 16 true 0 { backendUrl := DEFAULT_BACKEND_URL, deviceId := longDeviceId }
        none =
      (true, some [("backendUrl".toList, JsonValue.str DEFAULT_BACKEND_URL),
          ("deviceId".toList, JsonValue.null),
          ("firmware".toList, JsonValue.str FIRMWARE_VERSION),
          ("lastUpdate".toList, JsonValue.num 0)]) := by
  have hurl : DEFAULT_BACKEND_URL.length = 24 := by decide
  have hcap : staticJsonDocumentCapacity = 512 := rfl
  unfold saveConfiguration
  simp only [Bool.not_true, Bool.false_eq_true, if_false]
  rw [setString_of_room 16 { members := [], used := 0 } _ _ (by dsimp only; omega)]
  rw [setString_of_no_room 16
    { members := [] ++ [("backendUrl".toList, JsonValue.str DEFAULT_BACKEND_URL)]
      used := 0 + 16 + (DEFAULT_BACKEND_URL.length + 1) } _ _ (by dsimp only; omega)
    (by dsimp only; rw [longDeviceId_length]; omega)]
  rw [setInPlace_of_room 16
    { members := [] ++ [("backendUrl".toList, JsonValue.str DEFAULT_BACKEND_URL)] ++
        [("deviceId".toList, JsonValue.null)]
      used := 0 + 16 + (DEFAULT_BACKEND_URL.length + 1) + 16 } _ _ (by dsimp only; omega)]
  rw [setInPlace_of_room 16 _ _ _ (by dsimp only; omega)]
  rfl

theorem view_saved (millis : Nat) (c : Config) :
    JsonDocument.view
        [("backendUrl".toList, JsonValue.str c.backendUrl),
          ("deviceId".toList, JsonValue.str c.deviceId),
          ("firmware".toList, JsonValue.str FIRMWARE_VERSION),
          ("lastUpdate".toList, JsonValue.num millis)] =
      { backendUrl := some c.backendUrl, deviceId := some c.deviceId } := by
  have h1 : ("backendUrl".toList == "backendUrl".toList) = true := by decide
  have h2 : ("backendUrl".toList == "deviceId".toList) = false := by decide
  have h3 : ("deviceId".toList == "deviceId".toList) = true := by decide
  simp only [JsonDocument.view, JsonDocument.member, List.find?, h1, h2, h3, Option.map,
    JsonValue.asString]

theorem bytesToLoad_saved (slotBytes millis : Nat) (c : Config) :
    JsonDocument.bytesToLoad slotBytes
        [("backendUrl".toList, JsonValue.str c.backendUrl),
          ("deviceId".toList, JsonValue.str c.deviceId),
          ("firmware".toList, JsonValue.str FIRMWARE_VERSION),
          ("lastUpdate".toList, JsonValue.num millis)] =
      4 * slotBytes + c.backendUrl.length + c.deviceId.length + 48 := by
  have h1 : "backendUrl".toList.length = 10 := by decide
  have h2 : "deviceId".toList.length = 8 := by decide
  have h3 : "firmware".toList.length = 8 := by decide
  have h4 : "lastUpdate".toList.length = 10 := by decide
  have h5 : FIRMWARE_VERSION.length = 5 := by decide
  simp only [JsonDocument.bytesToLoad, List.map_cons, List.map_nil, List.sum_cons,
    List.sum_nil]
  rw [h1, h2, h3, h4, h5]
  ring

/-- C22 as stated fails: with the default URL, which `isValidUrl` accepts, and a
device identifier of 600 characters, `saveConfiguration` returns true but the
identifier does not fit the 512 bytes of the document and is saved as null;
`loadJsonConfiguration` then returns true and restores the URL but not the
identifier. -/
theorem saveConfiguration_drops_long_deviceId :
    isValidUrl DEFAULT_BACKEND_URL = true ∧ longDeviceId ≠ [] ∧
    saveConfiguration 16 true 0 { backendUrl := DEFAULT_BACKEND_URL, deviceId := longDeviceId }
        none =
      (true, some [("backendUrl".toList, JsonValue.str DEFAULT_BACKEND_URL),
          ("deviceId".toList, JsonValue.null),
          ("firmware".toList, JsonValue.str FIRMWARE_VERSION),
          ("lastUpdate".toList, JsonValue.num 0)]) ∧
    (loadJsonConfiguration "5c:cf:7f:12:ab:ef".toList
        (readConfigFile 16 true true
          (saveConfiguration 16 true 0
            { backendUrl := DEFAULT_BACKEND_URL, deviceId := longDeviceId } none).2)
        { backendUrl := [], deviceId := [] }).1 = true ∧
    (loadJsonConfiguration "5c:cf:7f:12:ab:ef".toList
        (readConfigFile 16 true true
          (saveConfiguration 16 true 0
            { backendUrl := DEFAULT_BACKEND_URL, deviceId := longDeviceId } none).2)
        { backendUrl := [], deviceId := [] }).2.backendUrl = DEFAULT_BACKEND_URL ∧
    (loadJsonConfiguration "5c:cf:7f:12:ab:ef".toList
        (readConfigFile 16 true true
          (saveConfiguration 16 true 0
            { backendUrl := DEFAULT_BACKEND_URL, deviceId := longDeviceId } none).2)
        { backendUrl := [], deviceId := [] }).2.deviceId ≠ longDeviceId := by
  have hne : longDeviceId ≠ [] := by
    intro h
    have := congrArg List.length h
    rw [longDeviceId_length] at this
    exact absurd this (by decide)
  refine ⟨by decide, hne, saveConfiguration_longDeviceId, ?_, ?_, ?_⟩
  · rw [saveConfiguration_longDeviceId]
    decide
  · rw [saveConfiguration_longDeviceId]
    decide
  · rw [saveConfiguration_longDeviceId]
    intro h
    have hlen := congrArg List.length h
    rw [longDeviceId_length] at hlen
    revert hlen
    decide

/-- C22 amended: for every `backendUrl` that satisfies `isValidUrl` and every
non-empty `deviceId` such that the document fits the 512 bytes of a
`StaticJsonDocument<512>` when it is loaded (four members, the four keys and
the firmware version, and the two strings with their terminators: with
`slotBytes` bytes for a member, `4 * slotBytes` plus the two lengths plus 48 is
at most 512), `saveConfiguration` followed by `loadJsonConfiguration`, the file
opening for writing and for reading and the JSON text being well formed, first
returns true and then returns true again and restores exactly the same
`backendUrl` and `deviceId`, whatever the two globals held in between, whatever
the config file held before and whatever `millis()` and the MAC address are. -/
theorem saveConfiguration_then_load (slotBytes : Nat) (mac : Str) (millis : Nat)
    (c between : Config) (file : Option JsonDocument)
    (hurl : isValidUrl c.backendUrl = true) (hid : c.deviceId ≠ [])
    (hfits : 4 * slotBytes + c.backendUrl.length + c.deviceId.length + 48 ≤
      staticJsonDocumentCapacity) :
    (saveConfiguration slotBytes true millis c file).1 = true ∧
    loadJsonConfiguration mac
        (readConfigFile slotBytes true true (saveConfiguration slotBytes true millis c file).2)
        between =
      (true, c) := by
  have hsave := saveConfiguration_of_room slotBytes millis c file (by omega)
  have hread : readConfigFile slotBytes true true
        (saveConfiguration slotBytes true millis c file).2 =
      ConfigFile.parsed { backendUrl := some c.backendUrl, deviceId := some c.deviceId } := by
    rw [hsave]
    simp only [readConfigFile, Bool.not_true, Bool.false_eq_true, if_false]
    rw [bytesToLoad_saved, if_neg (by omega), view_saved]
  refine ⟨by rw [hsave], ?_⟩
  rw [hread]
  have h1 : c.backendUrl.length > 0 := isValidUrl_length_pos _ hurl
  have h2 : c.deviceId.length > 0 := List.length_pos.mpr hid
  simp only [loadJsonConfiguration, h1, h2, hurl, if_true]

/-- C22 amended, on the default URL and a device identifier made from a MAC
address, with 16 bytes for a member. -/
theorem saveConfiguration_then_load_witness :
    loadJsonConfiguration "5c:cf:7f:12:ab:ef".toList
        (readConfigFile 16 true true
          (saveConfiguration 16 true 1000
            { backendUrl := DEFAULT_BACKEND_URL, deviceId := "ESP_5CCF7F12ABEF".toList }
            none).2)
        { backendUrl := [], deviceId := [] } =
      (true, { backendUrl := DEFAULT_BACKEND_URL, deviceId := "ESP_5CCF7F12ABEF".toList }) :=
  (saveConfiguration_then_load 16 "5c:cf:7f:12:ab:ef".toList 1000
    { backendUrl := DEFAULT_BACKEND_URL, deviceId := "ESP_5CCF7F12ABEF".toList }
    { backendUrl := [], deviceId := [] } none (by decide) (by decide) (by decide)).2

/-! ## Uptime -/

theorem toDigitsCore_append (fuel : Nat) :
    ∀ (n : Nat) (ds : List Char),
      Nat.toDigitsCore 10 fuel n ds = Nat.toDigitsCore 10 fuel n [] ++ ds := by
  induction fuel with
  | zero => intro n ds; simp [Nat.toDigitsCore]
  | succ fuel ih =>
    intro n ds
    by_cases h : n / 10 = 0
    · simp [Nat.toDigitsCore, h]
    · simp only [Nat.toDigitsCore, h, if_false]
      rw [ih (n / 10) (Nat.digitChar (n % 10) :: ds), ih (n / 10) [Nat.digitChar (n % 10)]]
      simp

theorem readUptimeChar_digit :
    ∀ k, k < 10 → ∀ a b : Nat,
      readUptimeChar (a, b) (Nat.digitChar k) = (a, b * 10 + k) := by
  intro k hk a b
  interval_cases k <;> rfl

theorem read_toDigitsCore (fuel : Nat) :
    ∀ (n t : Nat), n < fuel →
      (Nat.toDigitsCore 10 fuel n []).foldl readUptimeChar (t, 0) = (t, n) := by
  induction fuel with
  | zero => intro n t h; exact absurd h (Nat.not_lt_zero n)
  | succ fuel ih =>
    intro n t hn
    by_cases h : n / 10 = 0
    · have hlt : n < 10 := by omega
      simp only [Nat.toDigitsCore, h, if_true, List.foldl_cons, List.foldl_nil]
      rw [readUptimeChar_digit _ (Nat.mod_lt _ (by decide))]
      have : n % 10 = n := Nat.mod_eq_of_lt hlt
      simp [this]
    · simp only [Nat.toDigitsCore, h, if_false]
      rw [toDigitsCore_append, List.foldl_append, ih (n / 10) t (by omega)]
      simp only [List.foldl_cons, List.foldl_nil]
      rw [readUptimeChar_digit _ (Nat.mod_lt _ (by decide))]
      have : n / 10 * 10 + n % 10 = n := by omega
      rw [this]

theorem read_decimal (n t : Nat) : (decimal n).foldl readUptimeChar (t, 0) = (t, n) := by
  unfold decimal Nat.toDigits
  exact read_toDigitsCore (n + 1) n t (Nat.lt_succ_self n)

theorem read_days (k t : Nat) :
    (if k ≠ 0 then decimal k ++ "d ".toList else []).foldl readUptimeChar (t, 0) =
      (t + k * 86400, 0) := by
  by_cases h : k = 0
  · simp [h]
  · simp only [h, ne_eq, not_false_eq_true, if_true, List.foldl_append, read_decimal]
    rfl

theorem read_hours (k t : Nat) :
    (if k ≠ 0 then decimal k ++ "h ".toList else []).foldl readUptimeChar (t, 0) =
      (t + k * 3600, 0) := by
  by_cases h : k = 0
  · simp [h]
  · simp only [h, ne_eq, not_false_eq_true, if_true, List.foldl_append, read_decimal]
    rfl

theorem read_minutes (k t : Nat) :
    (if k ≠ 0 then decimal k ++ "m ".toList else []).foldl readUptimeChar (t, 0) =
      (t + k * 60, 0) := by
  by_cases h : k = 0
  · simp [h]
  · simp only [h, ne_eq, not_false_eq_true, if_true, List.foldl_append, read_decimal]
    rfl

theorem read_seconds (k t : Nat) :
    (decimal k ++ "s".toList).foldl readUptimeChar (t, 0) = (t + k, 0) := by
  simp only [List.foldl_append, read_decimal]
  rfl

/-- The text of `getFormattedUptime` as the concatenation of its four parts. -/
theorem format_eq_parts (u : Nat) :
    getFormattedUptime.format u =
      (if u / 86400 ≠ 0 then decimal (u / 86400) ++ "d ".toList else []) ++
      (if u % 86400 / 3600 ≠ 0 then decimal (u % 86400 / 3600) ++ "h ".toList else []) ++
      (if u % 86400 % 3600 / 60 ≠ 0 then decimal (u % 86400 % 3600 / 60) ++ "m ".toList
        else []) ++
      (decimal (u % 86400 % 3600 % 60) ++ "s".toList) := by
  have h24 : 24 * 3600 = 86400 := by decide
  simp only [getFormattedUptime.format, h24, gt_iff_lt, Nat.pos_iff_ne_zero, List.nil_append]
  by_cases hd : u / 86400 = 0 <;> by_cases hh : u % 86400 / 3600 = 0 <;>
    by_cases hm : u % 86400 % 3600 / 60 = 0 <;> simp [hd, hh, hm]

theorem foldl_four_parts (st : Nat × Nat) (a b c d : Str) :
    (a ++ b ++ c ++ d).foldl readUptimeChar st =
      d.foldl readUptimeChar (c.foldl readUptimeChar (b.foldl readUptimeChar
        (a.foldl readUptimeChar st))) := by
  simp only [List.foldl_append]

theorem readUptime_format (u : Nat) : readUptime (getFormattedUptime.format u) = u := by
  unfold readUptime
  rw [format_eq_parts, foldl_four_parts, read_days, read_hours, read_minutes, read_seconds]
  show 0 + u / 86400 * 86400 + u % 86400 / 3600 * 3600 + u % 86400 % 3600 / 60 * 60 +
    u % 86400 % 3600 % 60 = u
  omega

/-- C23: for every uptime of `u` seconds (the value of `getUptime()`, which is
`millis() / 1000`), `getFormattedUptime` splits `u` into days `d`, hours
`h < 24`, minutes `m < 60` and seconds `s < 60` with
`d*86400 + h*3600 + m*60 + s = u`, and returns the concatenation of the decimal
`d` with `"d "`, the decimal `h` with `"h "` and the decimal `m` with `"m "`, for
exactly those of `d`, `h`, `m` that are not zero, followed always by the decimal
`s` with `"s"`; 3600 gives `"1h 0s"` and 90061 gives `"1d 1h 1m 1s"`; distinct
uptimes give distinct strings. The decimal of a number is its usual decimal
notation. -/
theorem getFormattedUptime_spec (u : Nat) :
    (∀ millis, getUptime millis = u →
      getFormattedUptime millis = getFormattedUptime.format u) ∧
    getUptime (u * 1000) = u ∧
    (∃ d h m s : Nat, h < 24 ∧ m < 60 ∧ s < 60 ∧
      d * 86400 + h * 3600 + m * 60 + s = u ∧
      getFormattedUptime.format u =
        (if d ≠ 0 then decimal d ++ "d ".toList else []) ++
        (if h ≠ 0 then decimal h ++ "h ".toList else []) ++
        (if m ≠ 0 then decimal m ++ "m ".toList else []) ++
        (decimal s ++ "s".toList)) ∧
    (∀ u', getFormattedUptime.format u = getFormattedUptime.format u' → u = u') ∧
    (∀ millis millis', getUptime millis = u → getUptime millis' ≠ u →
      getFormattedUptime millis ≠ getFormattedUptime millis') ∧
    getFormattedUptime.format 3600 = "1h 0s".toList ∧
    getFormattedUptime.format 90061 = "1d 1h 1m 1s".toList ∧
    (∀ n, (decimal n).asString = Nat.repr n) := by
  have hinj : ∀ u', getFormattedUptime.format u = getFormattedUptime.format u' → u = u' := by
    intro u' h
    rw [← readUptime_format u, ← readUptime_format u', h]
  refine ⟨?_, ?_, ?_, hinj, ?_, by decide, by decide, fun n => rfl⟩
  · intro millis h
    unfold getFormattedUptime
    rw [h]
  · unfold getUptime
    omega
  · refine ⟨u / 86400, u % 86400 / 3600, u % 86400 % 3600 / 60, u % 86400 % 3600 % 60,
      by omega, by omega, by omega, by omega, format_eq_parts u⟩
  · intro millis millis' h h' heq
    unfold getFormattedUptime at heq
    rw [h] at heq
    exact h' (hinj _ heq).symm

end Attendee
